import Mathlib

set_option linter.unusedSectionVars false
set_option linter.unusedVariables false

/-!
Verification of the ajastra waste-collection route optimizer.

The TypeScript source (src/src/utils/routeOptimizer.ts and the unnamed
module part_009) is shallowly embedded here.  Numeric values are modelled
over an arbitrary linear ordered field with a floor (instantiated with ℚ
for executable witnesses and with ℝ when the actual haversine distance is
needed).  The haversine distance function itself is embedded over ℝ; the
pipeline functions take the distance function as an explicit parameter so
that the same embedding serves both instantiations.
-/

namespace Ajastra

/-! ## Generic numeric helpers -/

section Helpers

variable {β : Type} [LinearOrderedField β] [FloorRing β]

/-- JavaScript Math.round: round half up, i.e. floor of x + 1/2. -/
def jsRound (x : β) : ℤ := ⌊x + 1 / 2⌋

/-- JavaScript Math.max(...list, 0): maximum of a list of numbers and 0. -/
def listMax0 (l : List β) : β := l.foldl max 0

/-- JavaScript Math.max(...list) guarded by a nonempty check that yields 0
for the empty list, as calculateTotalTime does. -/
def jsMaxOr0 (l : List β) : β :=
  match l with
  | [] => 0
  | x :: xs => xs.foldl max x

end Helpers

/-- Nat ceiling division, modelling Math.ceil(a / b) for natural counts. -/
def ceilDivNat (a b : Nat) : Nat := (a + b - 1) / b

/-! ## Generic list helpers -/

/-- Update the first element satisfying a predicate, leave the rest alone.
Models mutating the value stored under a key of a JavaScript Map. -/
def updateFirst {κ : Type} (p : κ → Bool) (f : κ → κ) : List κ → List κ
  | [] => []
  | x :: xs => if p x then f x :: xs else x :: updateFirst p f xs

section SortDesc

variable {α : Type} {β : Type} [LinearOrder β]

/-- Insert x into a descending-sorted list: x is placed before the first
element with a strictly smaller key, hence after all elements with an equal
key. This matches a stable JavaScript Array.sort with the comparator
(a, b) => key(b) - key(a). -/
def insertDesc (key : α → β) (x : α) : List α → List α
  | [] => [x]
  | y :: ys => if key y < key x then x :: y :: ys else y :: insertDesc key x ys

/-- Stable descending sort by a key, as insertion sort. -/
def sortDescBy (key : α → β) : List α → List α
  | [] => []
  | x :: xs => insertDesc key x (sortDescBy key xs)

theorem insertDesc_perm (key : α → β) (x : α) (l : List α) :
    (insertDesc key x l).Perm (x :: l) := by
  induction l with
  | nil => simp [insertDesc]
  | cons y ys ih =>
    simp only [insertDesc]
    split
    · exact List.Perm.refl _
    · exact ((ih.cons y).trans (List.Perm.swap x y ys))

theorem sortDescBy_perm (key : α → β) (l : List α) :
    (sortDescBy key l).Perm l := by
  induction l with
  | nil => simp [sortDescBy]
  | cons x xs ih =>
    exact (insertDesc_perm key x (sortDescBy key xs)).trans (ih.cons x)

theorem insertDesc_sorted (key : α → β) (x : α) (l : List α)
    (h : l.Sorted (fun a b => key b ≤ key a)) :
    (insertDesc key x l).Sorted (fun a b => key b ≤ key a) := by
  induction l with
  | nil => simp [insertDesc]
  | cons y ys ih =>
    rw [List.sorted_cons] at h
    simp only [insertDesc]
    split
    · rename_i hlt
      refine List.sorted_cons.mpr ⟨?_, List.sorted_cons.mpr h⟩
      intro b hb
      rcases List.mem_cons.mp hb with rfl | hb2
      · exact le_of_lt hlt
      · exact le_trans (h.1 b hb2) (le_of_lt hlt)
    · rename_i hge
      refine List.sorted_cons.mpr ⟨?_, ih h.2⟩
      intro b hb
      have hmem : b = x ∨ b ∈ ys :=
        List.mem_cons.mp ((insertDesc_perm key x ys).mem_iff.mp hb)
      rcases hmem with rfl | hb2
      · exact le_of_not_lt hge
      · exact h.1 b hb2

theorem sortDescBy_sorted (key : α → β) (l : List α) :
    (sortDescBy key l).Sorted (fun a b => key b ≤ key a) := by
  induction l with
  | nil => simp [sortDescBy]
  | cons x xs ih => exact insertDesc_sorted key x _ ih

end SortDesc

/-! ## Nearest-neighbor sequencer (nearestNeighborTSP)

The source scans the remaining array keeping the first index attaining a
strictly smaller distance than the best so far (nearestDist starts at
Infinity, so index 0 always wins the first comparison).  extractMin models
one such scan: it returns the first minimum together with the remaining
elements in their original relative order (matching splice). -/

section NN

variable {α γ : Type} {δ : Type} [LinearOrder δ]

/-- One scan of the while-loop body of nearestNeighborTSP: pick the first
element minimising f among x :: l and return it with the rest. -/
def extractMin (f : α → δ) : α → List α → α × List α
  | x, [] => (x, [])
  | x, y :: ys =>
    if f y < f x then
      let r := extractMin f y ys
      (r.1, x :: r.2)
    else
      let r := extractMin f x ys
      (r.1, y :: r.2)

theorem extractMin_snd_length (f : α → δ) (x : α) (l : List α) :
    (extractMin f x l).2.length = l.length := by
  induction l generalizing x with
  | nil => simp [extractMin]
  | cons y ys ih =>
    simp only [extractMin]
    split <;> simp [ih]

theorem extractMin_perm (f : α → δ) (x : α) (l : List α) :
    (x :: l).Perm ((extractMin f x l).1 :: (extractMin f x l).2) := by
  induction l generalizing x with
  | nil => simp [extractMin]
  | cons y ys ih =>
    simp only [extractMin]
    split
    · dsimp only
      exact ((ih y).cons x).trans (List.Perm.swap _ _ _)
    · dsimp only
      exact ((List.Perm.swap _ _ _).symm.trans ((ih x).cons y)).trans
        (List.Perm.swap _ _ _)

theorem extractMin_min (f : α → δ) (x : α) (l : List α) :
    ∀ b ∈ x :: l, f (extractMin f x l).1 ≤ f b := by
  induction l generalizing x with
  | nil =>
    intro b hb
    have hbx : b = x := by simpa using hb
    simp [extractMin, hbx]
  | cons y ys ih =>
    intro b hb
    simp only [extractMin]
    split
    · rename_i hlt
      dsimp only
      rcases List.mem_cons.mp hb with rfl | hb2
      · exact le_trans (ih y y (by simp)) (le_of_lt hlt)
      · exact ih y b hb2
    · rename_i hge
      dsimp only
      rcases List.mem_cons.mp hb with rfl | hb2
      · exact ih b b (by simp)
      · rcases List.mem_cons.mp hb2 with rfl | hb3
        · exact le_trans (ih x x (by simp)) (le_of_not_lt hge)
        · exact ih x b (by simp [hb3])

/-- nearestNeighborTSP from the source: starting at start, repeatedly pick
the not-yet-visited point with minimum distance d from the current
position (first index wins ties) and advance to it.  pos projects a point
to its (lat, lng) coordinate pair; d is the distance function (the source
fixes d to haversineDistance). -/
def nearestNeighborTSP (d : γ → γ → δ) (pos : α → γ) : γ → List α → List α
  | _, [] => []
  | cur, x :: xs =>
    let r := extractMin (fun a => d cur (pos a)) x xs
    r.1 :: nearestNeighborTSP d pos (pos r.1) r.2
termination_by _ l => l.length
decreasing_by
  simp only [extractMin_snd_length, List.length_cons]
  omega

/-- The greedy invariant of a visiting order: each element is at minimum
distance from the current position among all elements not yet visited. -/
def IsGreedy (d : γ → γ → δ) (pos : α → γ) : γ → List α → Prop
  | _, [] => True
  | cur, x :: xs =>
    (∀ b ∈ x :: xs, d cur (pos x) ≤ d cur (pos b)) ∧ IsGreedy d pos (pos x) xs

theorem nearestNeighborTSP_perm (d : γ → γ → δ) (pos : α → γ)
    (start : γ) (points : List α) :
    (nearestNeighborTSP d pos start points).Perm points := by
  generalize hn : points.length = n
  induction n using Nat.strong_induction_on generalizing start points with
  | _ n ih =>
    match points with
    | [] => simp [nearestNeighborTSP]
    | x :: xs =>
      rw [nearestNeighborTSP]
      have hlen : (extractMin (fun a => d start (pos a)) x xs).2.length < n := by
        rw [extractMin_snd_length]
        simp at hn
        omega
      have hrec := ih _ hlen (pos (extractMin (fun a => d start (pos a)) x xs).1)
        (extractMin (fun a => d start (pos a)) x xs).2 rfl
      exact (hrec.cons _).trans (extractMin_perm _ x xs).symm

theorem nearestNeighborTSP_greedy (d : γ → γ → δ) (pos : α → γ)
    (start : γ) (points : List α) :
    IsGreedy d pos start (nearestNeighborTSP d pos start points) := by
  generalize hn : points.length = n
  induction n using Nat.strong_induction_on generalizing start points with
  | _ n ih =>
    match points with
    | [] => simp [nearestNeighborTSP, IsGreedy]
    | x :: xs =>
      rw [nearestNeighborTSP]
      refine ⟨?_, ?_⟩
      · intro b hb
        rcases List.mem_cons.mp hb with rfl | hb2
        · exact le_refl _
        · have hbmem :
              b ∈ (extractMin (fun a => d start (pos a)) x xs).1 ::
                (extractMin (fun a => d start (pos a)) x xs).2 :=
            List.mem_cons_of_mem _
              ((nearestNeighborTSP_perm d pos _ _).mem_iff.mp hb2)
          have hmem : b ∈ x :: xs :=
            (extractMin_perm (fun a => d start (pos a)) x xs).mem_iff.mpr hbmem
          exact extractMin_min (fun a => d start (pos a)) x xs b hmem
      · have hlen : (extractMin (fun a => d start (pos a)) x xs).2.length < n := by
          rw [extractMin_snd_length]
          simp at hn
          omega
        exact ih _ hlen _ _ rfl

end NN

/-! ## Haversine distance (the Geodesic Distance leaf utility)

haversineDistance is transcribed from the source over the exact reals;
atan2 models JavaScript Math.atan2. -/

/-- JavaScript Math.atan2 over the reals. -/
noncomputable def atan2 (y x : ℝ) : ℝ :=
  if 0 < x then Real.arctan (y / x)
  else if x < 0 ∧ 0 ≤ y then Real.arctan (y / x) + Real.pi
  else if x < 0 ∧ y < 0 then Real.arctan (y / x) - Real.pi
  else if x = 0 ∧ 0 < y then Real.pi / 2
  else if x = 0 ∧ y < 0 then -(Real.pi / 2)
  else 0

/-- Haversine great-circle distance in km, Earth radius 6371 km,
transcribed from haversineDistance in the source. -/
noncomputable def haversineDistance (lat1 lon1 lat2 lon2 : ℝ) : ℝ :=
  let R : ℝ := 6371
  let dLat := (lat2 - lat1) * Real.pi / 180
  let dLon := (lon2 - lon1) * Real.pi / 180
  let a := Real.sin (dLat / 2) * Real.sin (dLat / 2) +
    Real.cos (lat1 * Real.pi / 180) * Real.cos (lat2 * Real.pi / 180) *
      (Real.sin (dLon / 2) * Real.sin (dLon / 2))
  let c := 2 * atan2 (Real.sqrt a) (Real.sqrt (1 - a))
  R * c

/-- Haversine distance on (lat, lng) coordinate pairs, the form the
pipeline passes around. -/
noncomputable def havDist (p q : ℝ × ℝ) : ℝ :=
  haversineDistance p.1 p.2 q.1 q.2

/-- The km length of one degree of longitude along the equator. -/
noncomputable def havConst : ℝ := 6371 * Real.pi / 180

theorem havConst_pos : 0 < havConst := by
  have := Real.pi_pos
  unfold havConst
  positivity

theorem havConst_gt_100 : 100 < havConst := by
  have h3 := Real.pi_gt_three
  unfold havConst
  nlinarith

theorem abs_sin_eq_sin_abs {t : ℝ} (h1 : -Real.pi < t) (h2 : t < Real.pi) :
    |Real.sin t| = Real.sin |t| := by
  rcases le_or_lt 0 t with ht | ht
  · rw [abs_of_nonneg ht, abs_of_nonneg (Real.sin_nonneg_of_nonneg_of_le_pi ht (le_of_lt h2))]
  · rw [abs_of_neg ht]
    have h3 : 0 ≤ Real.sin (-t) :=
      Real.sin_nonneg_of_nonneg_of_le_pi (by linarith) (by linarith)
    rw [← abs_of_nonneg h3, Real.sin_neg, abs_neg]

/-- On the equator the haversine formula reduces to arc length along the
equator: havConst km per degree of longitude difference. -/
theorem haversine_equator (a b : ℝ) (h : |b - a| < 180) :
    haversineDistance 0 a 0 b = havConst * |b - a| := by
  have hpi := Real.pi_pos
  simp only [haversineDistance]
  set t := (b - a) * Real.pi / 180 / 2 with ht
  have hpi360 : (0 : ℝ) < Real.pi / 360 := div_pos hpi (by norm_num)
  have habs_t : |t| = |b - a| * (Real.pi / 360) := by
    rw [ht, show (b - a) * Real.pi / 180 / 2 = (b - a) * (Real.pi / 360) from by ring,
      abs_mul, abs_of_pos hpi360]
  have ht_lt : |t| < Real.pi / 2 := by
    rw [habs_t]
    calc |b - a| * (Real.pi / 360) < 180 * (Real.pi / 360) := by
          apply mul_lt_mul_of_pos_right h (by positivity)
      _ = Real.pi / 2 := by ring
  have ht_bound1 : -(Real.pi / 2) < t := by
    have := neg_abs_le t
    linarith [abs_nonneg t, ht_lt, (neg_lt_neg ht_lt), neg_abs_le t]
  have ht_bound2 : t < Real.pi / 2 := lt_of_le_of_lt (le_abs_self t) ht_lt
  have hzero : (0 - 0 : ℝ) * Real.pi / 180 / 2 = 0 := by ring
  rw [hzero, Real.sin_zero]
  have hcos0 : Real.cos ((0 : ℝ) * Real.pi / 180) = 1 := by
    rw [show (0 : ℝ) * Real.pi / 180 = 0 by ring, Real.cos_zero]
  rw [hcos0]
  have hA : (0 * 0 + 1 * 1 * (Real.sin t * Real.sin t) : ℝ) = Real.sin t ^ 2 := by ring
  rw [hA]
  have hsqrt1 : Real.sqrt (Real.sin t ^ 2) = |Real.sin t| := Real.sqrt_sq_eq_abs _
  have hcospos : 0 < Real.cos t :=
    Real.cos_pos_of_mem_Ioo ⟨ht_bound1, ht_bound2⟩
  have hsqrt2 : Real.sqrt (1 - Real.sin t ^ 2) = Real.cos t := by
    rw [show (1 - Real.sin t ^ 2 : ℝ) = Real.cos t ^ 2 by
      have := Real.sin_sq_add_cos_sq t; linarith]
    rw [Real.sqrt_sq_eq_abs, abs_of_pos hcospos]
  rw [hsqrt1, hsqrt2]
  have hatan : atan2 |Real.sin t| (Real.cos t) = |t| := by
    unfold atan2
    rw [if_pos hcospos]
    have hsin_abs : |Real.sin t| = Real.sin |t| :=
      abs_sin_eq_sin_abs (by linarith) (by linarith)
    have hcos_abs : Real.cos t = Real.cos |t| := (Real.cos_abs t).symm
    rw [hsin_abs, hcos_abs, ← Real.tan_eq_sin_div_cos]
    exact Real.arctan_tan (by linarith [abs_nonneg t]) ht_lt
  rw [hatan, habs_t]
  unfold havConst
  ring

/-- Haversine distance is symmetric in its two coordinate arguments. -/
theorem haversineDistance_symm (lat1 lon1 lat2 lon2 : ℝ) :
    haversineDistance lat2 lon2 lat1 lon1 = haversineDistance lat1 lon1 lat2 lon2 := by
  simp only [haversineDistance]
  have h1 : (lat1 - lat2) * Real.pi / 180 / 2 = -((lat2 - lat1) * Real.pi / 180 / 2) := by
    ring
  have h2 : (lon1 - lon2) * Real.pi / 180 / 2 = -((lon2 - lon1) * Real.pi / 180 / 2) := by
    ring
  rw [h1, h2, Real.sin_neg, Real.sin_neg]
  ring_nf

theorem havDist_symm (p q : ℝ × ℝ) : havDist p q = havDist q p := by
  unfold havDist
  exact haversineDistance_symm q.1 q.2 p.1 p.2

/-! ## Data model

Entities carry the fields the optimizer reads.  Display-only fields of the
TypeScript interfaces (area label, driver name, smart-bin flag) are
omitted because no embedded function reads them. -/

inductive VStatus : Type
  | active
  | offDuty
  | inRoute
deriving DecidableEq

inductive VehicleType : Type
  | sat
  | truck
deriving DecidableEq

inductive StopType : Type
  | smartbin
  | compactStation
  | dumpyard
deriving DecidableEq

inductive StopAction : Type
  | pickup
  | dropoff
deriving DecidableEq

structure SmartBin (β : Type) where
  id : String
  lat : β
  lng : β
  capacity : β
  currentLevel : β
deriving DecidableEq

structure CompactStation (β : Type) where
  id : String
  lat : β
  lng : β
  capacity : β
  currentLevel : β
deriving DecidableEq

structure Dumpyard (β : Type) where
  id : String
  name : String
  lat : β
  lng : β
  capacity : β
  currentLevel : β
deriving DecidableEq

structure Vehicle (β : Type) where
  id : String
  capacity : β
  status : VStatus
deriving DecidableEq

structure RouteStop (β : Type) where
  lat : β
  lng : β
  type : StopType
  id : String
  action : StopAction
deriving DecidableEq

structure OptimizedRoute (β : Type) where
  vehicleId : String
  vehicleType : VehicleType
  route : List (RouteStop β)
  totalDistance : β
  estimatedTime : β
  startTime : β
  tripNumber : Option Nat
  targetStationId : Option String
  coordinates : List (β × β)
  osrmFetched : Bool
deriving DecidableEq

@[simp] theorem vehicleType_beq (a b : VehicleType) : (a == b) = decide (a = b) := rfl

@[simp] theorem vstatus_beq (a b : VStatus) : (a == b) = decide (a = b) := rfl

@[simp] theorem stopType_beq (a b : StopType) : (a == b) = decide (a = b) := rfl

section Pipeline

variable {β : Type} [LinearOrderedField β] [FloorRing β]

def binPos (b : SmartBin β) : β × β := (b.lat, b.lng)

def stationPos (s : CompactStation β) : β × β := (s.lat, s.lng)

def dumpPos (dy : Dumpyard β) : β × β := (dy.lat, dy.lng)

/-- Per-bin estimated weight: (fillLevel / 100) * capacity * 0.5. -/
def binWeight (b : SmartBin β) : β := b.currentLevel / 100 * b.capacity / 2

/-- Sum of consecutive-leg distances over a coordinate path, the pattern
the source uses to compute totalDist over routeCoords. -/
def legSum (d : β × β → β × β → β) : List (β × β) → β
  | [] => 0
  | [_] => 0
  | p :: q :: rest => d p q + legSum d (q :: rest)

/-! ## Capacity-constrained batcher

Transcribed from the per-station batching loop of generateOptimizedRoutes
(routeOptimizer.ts stage 1, balanced branch, lines 313-348; the standard
branch lines 372-396 is the same loop): greedily add bins to the current
batch while the accumulated weight stays within the vehicle capacity; on
the first violation flush the current batch (if nonempty) and start a new
batch with the violating bin; flush the final batch at the end. -/

def batchLoop (cap : β) : List (SmartBin β) → List (SmartBin β) → β → List (List (SmartBin β))
  | [], cur, _ => if cur.isEmpty then [] else [cur]
  | b :: rest, cur, load =>
    let w := binWeight b
    if load + w ≤ cap then batchLoop cap rest (cur ++ [b]) (load + w)
    else if cur.isEmpty then batchLoop cap rest [b] w
    else cur :: batchLoop cap rest [b] w

/-- The batching step: split a list of bins into trip batches for a
vehicle of the given capacity. -/
def batchBins (cap : β) (bins : List (SmartBin β)) : List (List (SmartBin β)) :=
  batchLoop cap bins [] 0

/-- Cumulative estimated weight of a batch. -/
def batchWeight (l : List (SmartBin β)) : β := (l.map binWeight).sum

theorem batchLoop_join (cap : β) (bins : List (SmartBin β)) :
    ∀ cur load, (batchLoop cap bins cur load).flatten = cur ++ bins := by
  induction bins with
  | nil =>
    intro cur load
    simp only [batchLoop]
    cases hcur : cur.isEmpty
    · simp [hcur]
    · simp [List.isEmpty_iff.mp hcur]
  | cons b rest ih =>
    intro cur load
    simp only [batchLoop]
    split
    · rw [ih]
      simp
    · split
      · rename_i hempty
        rw [List.isEmpty_iff.mp hempty]
        rw [ih]
        simp
      · simp only [List.flatten_cons]
        rw [ih]
        simp

theorem batchLoop_weight (cap : β) (bins : List (SmartBin β)) :
    ∀ cur load, load = batchWeight cur → (cur ≠ [] → load ≤ cap) →
      (∀ b ∈ bins, binWeight b ≤ cap) →
      ∀ batch ∈ batchLoop cap bins cur load, batchWeight batch ≤ cap := by
  induction bins with
  | nil =>
    intro cur load hload hcur _ batch hbatch
    simp only [batchLoop] at hbatch
    split at hbatch
    · simp at hbatch
    · rename_i hne
      have : batch = cur := by simpa using hbatch
      subst this
      rw [← hload]
      exact hcur (by simpa [List.isEmpty_iff] using hne)
  | cons b rest ih =>
    intro cur load hload hcur hbins batch hbatch
    simp only [batchLoop] at hbatch
    split at hbatch
    · rename_i hfits
      refine ih _ _ ?_ ?_ (fun x hx => hbins x (by simp [hx])) batch hbatch
      · simp [batchWeight, hload]
      · intro _
        exact hfits
    · have hbcap : binWeight b ≤ cap := hbins b (by simp)
      split at hbatch
      · refine ih _ _ ?_ ?_ (fun x hx => hbins x (by simp [hx])) batch hbatch
        · simp [batchWeight]
        · intro _
          exact hbcap
      · rcases List.mem_cons.mp hbatch with rfl | hbatch2
        · rw [← hload]
          rename_i hne
          exact hcur (by simpa [List.isEmpty_iff] using hne)
        · refine ih _ _ ?_ ?_ (fun x hx => hbins x (by simp [hx])) batch hbatch2
          · simp [batchWeight]
          · intro _
            exact hbcap

/-! ## part_009 pipeline (generateOptimizedRoutes, final evolution)

The entry point takes the haversine distance function d and the current
hour (new Date().getHours()) as parameters.  JavaScript Maps keyed by id
are modelled as association lists in insertion order; station ids are
assumed distinct as in the data model. -/

/-- A bin paired with its assigned station, the binPool element shape. -/
structure BinSt (β : Type) where
  bin : SmartBin β
  station : CompactStation β
deriving DecidableEq

def MAX_STOPS_PER_SAT : Nat := 20

def MAX_STATIONS_PER_TRUCK : Nat := 2

/-- First minimum of a list under f, modelling the nearest-entity scan
pattern (best starts at element 0, updated on strictly smaller distance). -/
def nearestBy {α : Type} (f : α → β) : List α → Option α
  | [] => none
  | x :: xs => some (xs.foldl (fun best y => if f y < f best then y else best) x)

/-- Threshold selection: bins at fill level 30 or more, or all bins when
none meets the threshold. -/
def selectBinsToCollect (bins : List (SmartBin β)) : List (SmartBin β) :=
  let c := bins.filter (fun b => 30 ≤ b.currentLevel)
  if c.isEmpty then bins else c

/-- assignBinsToStations from the source: a map from each station to the
bins whose nearest station it is; bins with fill level below 30 are
skipped inside this function as well. -/
def assignBinsToStations (d : β × β → β × β → β) (bins : List (SmartBin β))
    (stations : List (CompactStation β)) :
    List (CompactStation β × List (SmartBin β)) :=
  bins.foldl (fun acc b =>
    if b.currentLevel < 30 then acc
    else
      match nearestBy (fun s => d (binPos b) (stationPos s)) stations with
      | none => acc
      | some ns => updateFirst (fun p => p.1.id == ns.id) (fun p => (p.1, p.2 ++ [b])) acc)
    (stations.map (fun s => (s, [])))

/-- Flatten the station-to-bins map into the binPool, in map insertion
order, pairing each bin with its station. -/
def binPoolOf (assignments : List (CompactStation β × List (SmartBin β))) :
    List (BinSt β) :=
  assignments.flatMap (fun p => p.2.map (fun b => BinSt.mk b p.1))

/-- Read a station waste accumulator entry (missing entries read as 0,
matching the `|| 0` fallback). -/
def wasteGet (waste : List (String × β)) (sid : String) : β :=
  match waste.find? (fun p => p.1 == sid) with
  | some p => p.2
  | none => 0

/-- Write a station waste accumulator entry (Map.set semantics). -/
def wasteSet (waste : List (String × β)) (sid : String) (v : β) : List (String × β) :=
  if waste.any (fun p => p.1 == sid) then
    updateFirst (fun p => p.1 == sid) (fun p => (p.1, v)) waste
  else waste ++ [(sid, v)]

/-- The truck-phase read of a station waste:
stationWaste.get(s.id) || s.currentLevel || 0. -/
def wasteVal (waste : List (String × β)) (s : CompactStation β) : β :=
  let w := wasteGet waste s.id
  if w ≠ 0 then w else s.currentLevel

/-- Peak-hour windows 8-10 and 17-20 used for speed derating. -/
def isPeakHour (h : Nat) : Prop := (8 ≤ h ∧ h ≤ 10) ∨ (17 ≤ h ∧ h ≤ 20)

instance (h : Nat) : Decidable (isPeakHour h) := by
  unfold isPeakHour
  infer_instance

/-- The bin-collecting while loop of the balanced distribution: walk the
pool from the front until the target count is collected or the pool is
exhausted; a bin whose weight would exceed the vehicle capacity is skipped
(consumed from the pool without being collected).  Returns the collected
bins, the accumulated load, and the remaining pool. -/
def collectBins (cap : β) : Nat → β → List (BinSt β) → List (BinSt β) × β × List (BinSt β)
  | 0, load, pool => ([], load, pool)
  | _ + 1, load, [] => ([], load, [])
  | n + 1, load, bd :: rest =>
    let w := binWeight bd.bin
    if cap < load + w then collectBins cap (n + 1) load rest
    else
      let r := collectBins cap n (load + w) rest
      (bd :: r.1, r.2.1, r.2.2)
termination_by n _ pool => pool.length

/-- One SAT route of the balanced distribution (lines 337-448 of
part_009), iterated over the active SAT list; the state is the remaining
bin pool, the satTimes list and the station waste accumulator. -/
def satLoop (d : β × β → β × β → β) (hour : Nat) :
    List (Vehicle β) → List (BinSt β) → List β → List (String × β) →
      List (OptimizedRoute β) × List β × List (String × β)
  | [], _, times, waste => ([], times, waste)
  | sat :: restSats, pool, times, waste =>
    let binsFor := min (ceilDivNat pool.length (restSats.length + 1)) MAX_STOPS_PER_SAT
    match pool with
    | [] => satLoop d hour restSats [] times waste
    | first :: _ =>
      if binsFor = 0 then satLoop d hour restSats pool times waste
      else
        let targetStation := first.station
        let col := collectBins sat.capacity binsFor 0 pool
        let satBins := col.1.map BinSt.bin
        let currentLoad := col.2.1
        let pool2 := col.2.2
        if satBins.isEmpty then satLoop d hour restSats pool2 times waste
        else
          let optimizedBins := nearestNeighborTSP d binPos (stationPos targetStation) satBins
          let totalDist := legSum d
            (stationPos targetStation :: optimizedBins.map binPos ++ [stationPos targetStation])
          let avgSpeed : β := if isPeakHour hour then 18 else 25
          let tripTime : β := ((jsRound (totalDist / avgSpeed * 60) : ℤ) : β)
          let times2 := times ++ [tripTime]
          let waste2 := wasteSet waste targetStation.id
            (wasteGet waste targetStation.id + currentLoad)
          let route : OptimizedRoute β :=
            { vehicleId := sat.id
              vehicleType := .sat
              route := ⟨targetStation.lat, targetStation.lng, .compactStation,
                  targetStation.id, .pickup⟩ ::
                optimizedBins.map (fun b => ⟨b.lat, b.lng, .smartbin, b.id, .pickup⟩) ++
                [⟨targetStation.lat, targetStation.lng, .compactStation,
                  targetStation.id, .dropoff⟩]
              totalDistance := ((jsRound (totalDist * 10) : ℤ) : β) / 10
              estimatedTime := tripTime
              startTime := 0
              tripNumber := some 1
              targetStationId := some targetStation.id
              coordinates := stationPos targetStation :: optimizedBins.map binPos ++
                [stationPos targetStation]
              osrmFetched := false }
          let r := satLoop d hour restSats pool2 times2 waste2
          (route :: r.1, r.2)

/-- The station-collecting while loop of the balanced truck distribution,
same skip-on-capacity pattern as collectBins. -/
def collectStations (cap : β) :
    Nat → β → List (CompactStation β × β) →
      List (CompactStation β) × β × List (CompactStation β × β)
  | 0, load, pool => ([], load, pool)
  | _ + 1, load, [] => ([], load, [])
  | n + 1, load, sw :: rest =>
    if cap < load + sw.2 then collectStations cap (n + 1) load rest
    else
      let r := collectStations cap n (load + sw.2) rest
      (sw.1 :: r.1, r.2.1, r.2.2)
termination_by n _ pool => pool.length

/-- One truck route of the balanced truck distribution (lines 467-562 of
part_009); startT is Math.max(...satTimes, 0), the same for every truck
route of the run. -/
def truckLoop (d : β × β → β × β → β) (hour : Nat) (dumps : List (Dumpyard β)) (startT : β) :
    List (Vehicle β) → List (CompactStation β × β) → List (OptimizedRoute β)
  | [], _ => []
  | truck :: restTrucks, pool =>
    let stationsFor := min (ceilDivNat pool.length (restTrucks.length + 1))
      MAX_STATIONS_PER_TRUCK
    match pool with
    | [] => truckLoop d hour dumps startT restTrucks []
    | _ :: _ =>
      if stationsFor = 0 then truckLoop d hour dumps startT restTrucks pool
      else
        let col := collectStations truck.capacity stationsFor 0 pool
        let truckStations := col.1
        let pool2 := col.2.2
        match truckStations with
        | [] => truckLoop d hour dumps startT restTrucks pool2
        | s0 :: _ =>
          match nearestBy (fun dy => d (stationPos s0) (dumpPos dy)) dumps with
          | none => truckLoop d hour dumps startT restTrucks pool2
          | some nd =>
            let optimizedStations := nearestNeighborTSP d stationPos (dumpPos nd) truckStations
            let totalDist := legSum d
              (dumpPos nd :: optimizedStations.map stationPos ++ [dumpPos nd])
            let avgTruckSpeed : β := if isPeakHour hour then 25 else 35
            let tripTime : β := ((jsRound (totalDist / avgTruckSpeed * 60) : ℤ) : β)
            let route : OptimizedRoute β :=
              { vehicleId := truck.id
                vehicleType := .truck
                route := ⟨nd.lat, nd.lng, .dumpyard, nd.id, .pickup⟩ ::
                  optimizedStations.map
                    (fun s => ⟨s.lat, s.lng, .compactStation, s.id, .pickup⟩) ++
                  [⟨nd.lat, nd.lng, .dumpyard, nd.id, .dropoff⟩]
                totalDistance := ((jsRound (totalDist * 10) : ℤ) : β) / 10
                estimatedTime := tripTime
                startTime := startT
                tripNumber := none
                targetStationId := none
                coordinates := dumpPos nd :: optimizedStations.map stationPos ++ [dumpPos nd]
                osrmFetched := false }
            route :: truckLoop d hour dumps startT restTrucks pool2

/-- The synthetic default dumpyard substituted when none is supplied
(coordinates 17.4239, 78.4738 written as rationals). -/
def defaultDumpyard : Dumpyard β :=
  ⟨"DUMPYARD-DEFAULT", "Central Dumpyard", 174239 / 10000, 784738 / 10000, 100000, 0⟩

/-- The SAT phase of the run: threshold selection, nearest-station
assignment, pool construction sorted by descending fill level, then the
balanced distribution loop.  Returns (routes, satTimes, stationWaste). -/
def satPhase (d : β × β → β × β → β) (hour : Nat) (bins : List (SmartBin β))
    (stations : List (CompactStation β)) (sats : List (Vehicle β)) :
    List (OptimizedRoute β) × List β × List (String × β) :=
  satLoop d hour (sats.filter (fun v => v.status == VStatus.active))
    (sortDescBy (fun p : BinSt β => p.bin.currentLevel)
      (binPoolOf (assignBinsToStations d (selectBinsToCollect bins) stations)))
    [] (stations.map (fun s => (s.id, s.currentLevel)))

/-- The truck phase of the run: stations carrying strictly positive
accumulated waste, sorted by descending waste, fed to the balanced truck
distribution. -/
def truckPhase (d : β × β → β × β → β) (hour : Nat)
    (stations : List (CompactStation β)) (dumps : List (Dumpyard β))
    (trucks : List (Vehicle β)) (satTimes : List β) (waste : List (String × β)) :
    List (OptimizedRoute β) :=
  truckLoop d hour dumps (listMax0 satTimes) trucks
    (sortDescBy (fun p : CompactStation β × β => p.2)
      ((stations.map (fun s => (s, wasteVal waste s))).filter (fun p => 0 < p.2)))

/-- generateOptimizedRoutes of part_009: precondition checks, then the SAT
phase, then the truck phase.  The asynchronous OSRM refinement is started
after the synchronous result is produced and is modelled separately by
fetchOSRMRoutesProgressivelyM. -/
def generateOptimizedRoutesP9 (d : β × β → β × β → β) (hour : Nat)
    (bins : List (SmartBin β)) (stations : List (CompactStation β))
    (dumpyards : List (Dumpyard β)) (sats trucks : List (Vehicle β)) :
    Except String (List (OptimizedRoute β)) :=
  if bins.isEmpty then
    .error "No smart bins available. Please upload data with GVP locations."
  else if stations.isEmpty then
    .error "No compact stations available. Please upload data with SCTP/station locations."
  else if sats.isEmpty then
    .error "No SAT vehicles available. Please upload fleet data with Mini Tippers."
  else if (sats.filter (fun v => v.status == VStatus.active)).isEmpty then
    .error "No active SAT vehicles available for routing"
  else
    let activeDumpyards := if dumpyards.isEmpty then [defaultDumpyard] else dumpyards
    let activeTrucks := trucks.filter (fun v => v.status == VStatus.active)
    let sp := satPhase d hour bins stations sats
    let truckRoutes :=
      if ¬activeTrucks.isEmpty ∧ ¬stations.isEmpty then
        truckPhase d hour stations activeDumpyards activeTrucks sp.2.1 sp.2.2
      else []
    .ok (sp.1 ++ truckRoutes)

/-- calculateTotalTime from part_009: max SAT route time plus max truck
route time, with the hours figure rounded to one decimal and capped at 20
while the minutes figure is left uncapped. -/
def calculateTotalTime (routes : List (OptimizedRoute β)) : β × β :=
  let satRoutes := routes.filter (fun r => r.vehicleType == VehicleType.sat)
  let truckRoutes := routes.filter (fun r => r.vehicleType == VehicleType.truck)
  let maxSatTime := if ¬satRoutes.isEmpty then jsMaxOr0 (satRoutes.map (fun r => r.estimatedTime)) else 0
  let maxTruckTime := if ¬truckRoutes.isEmpty then jsMaxOr0 (truckRoutes.map (fun r => r.estimatedTime)) else 0
  let totalMinutes := maxSatTime + maxTruckTime
  let hours := ((jsRound (totalMinutes / 60 * 10) : ℤ) : β) / 10
  (totalMinutes, min hours 20)

end Pipeline

/-! ## Road-Route Resolver (getOSRMRoute and progressive fetching)

The external HTTP service is modelled by an oracle giving the outcome of
each attempt; exceptions thrown by the source are modelled as Except
errors. -/

/-- One route candidate of an OSRM response: distance in meters, duration
in seconds, geometry as (lng, lat) pairs. -/
structure OSRMRouteData (β : Type) where
  distance : β
  duration : β
  geometry : List (β × β)
deriving DecidableEq

/-- Outcome of one fetch attempt: a thrown network error, HTTP 429, any
other non-ok status, or an ok response carrying a route list. -/
inductive OSRMOutcome (β : Type) : Type
  | netError
  | rateLimited
  | httpError
  | success (routes : List (OSRMRouteData β))
deriving DecidableEq

/-- The errors getOSRMRoute can propagate after exhausting its retries. -/
inductive OSRMFailure : Type
  | rateLimitExceeded
  | requestFailed
  | thrown
deriving DecidableEq

/-- The normalized result of a successful resolution. -/
structure OSRMResult (β : Type) where
  coords : List (β × β)
  distance : β
  duration : β
  avgSpeed : β
deriving DecidableEq

section OSRM

variable {β : Type} [LinearOrderedField β] [FloorRing β]

/-- Among returned route candidates pick the one with the lowest duration
(first wins ties), modelling the best-route scan. -/
def bestOSRMRoute : List (OSRMRouteData β) → Option (OSRMRouteData β)
  | [] => none
  | r :: rest =>
    some (rest.foldl (fun best q => if q.duration < best.duration then q else best) r)

/-- Normalize a chosen route candidate: km, minutes, average speed with a
25 km/h fallback, coordinates flipped to (lat, lng). -/
def mkOSRMResult (r : OSRMRouteData β) : OSRMResult β :=
  let distance := r.distance / 1000
  let duration := r.duration / 60
  let avgSpeed := if 0 < duration then distance / (duration / 60) else 25
  ⟨r.geometry.map (fun c => (c.2, c.1)), distance, duration, avgSpeed⟩

/-- The attempt loop of getOSRMRoute (part_009): on rate limiting, a
failed status or a thrown error, retry while attempts remain, otherwise
propagate the error; on an ok response with a nonempty route list return
the best route; on an ok response with no routes fall through to the next
attempt; if every attempt falls through, return none. -/
def getOSRMRouteAux (responses : Nat → OSRMOutcome β) (retries : Nat) :
    Nat → Nat → Except OSRMFailure (Option (OSRMResult β))
  | 0, _ => .ok none
  | fuel + 1, attempt =>
    match responses attempt with
    | .rateLimited =>
      if attempt < retries then getOSRMRouteAux responses retries fuel (attempt + 1)
      else .error .rateLimitExceeded
    | .httpError =>
      if attempt < retries then getOSRMRouteAux responses retries fuel (attempt + 1)
      else .error .requestFailed
    | .netError =>
      if attempt < retries then getOSRMRouteAux responses retries fuel (attempt + 1)
      else .error .thrown
    | .success rs =>
      match bestOSRMRoute rs with
      | some r => .ok (some (mkOSRMResult r))
      | none => getOSRMRouteAux responses retries fuel (attempt + 1)

/-- getOSRMRoute from part_009 (default retries = 3): returns none for
fewer than 2 coordinates, otherwise runs the attempt loop. -/
def getOSRMRouteM (responses : Nat → OSRMOutcome β) (retries : Nat)
    (coordinates : List (β × β)) : Except OSRMFailure (Option (OSRMResult β)) :=
  if coordinates.length < 2 then .ok none
  else getOSRMRouteAux responses retries (retries + 1) 0

/-- How fetchOSRMRoutesProgressively applies one resolution outcome to a
route: on a route result overwrite coordinates, distance and time and mark
fetched; on null or a caught error only mark fetched. -/
def applyFetchResult (res : Except OSRMFailure (Option (OSRMResult β)))
    (r : OptimizedRoute β) : OptimizedRoute β :=
  match res with
  | .ok (some o) =>
    { r with coordinates := o.coords
             totalDistance := ((jsRound (o.distance * 10) : ℤ) : β) / 10
             estimatedTime := ((jsRound o.duration : ℤ) : β)
             osrmFetched := true }
  | .ok none => { r with osrmFetched := true }
  | .error _ => { r with osrmFetched := true }

/-- fetchOSRMRoutesProgressively from part_009: process every route in
order (skipping already-fetched ones), resolving each with retries = 3;
oracle i gives the response sequence for the route at index i. -/
def fetchOSRMRoutesProgressivelyM (oracle : Nat → Nat → OSRMOutcome β)
    (routes : List (OptimizedRoute β)) : List (OptimizedRoute β) :=
  routes.enum.map (fun p =>
    if p.2.osrmFetched then p.2
    else applyFetchResult (getOSRMRouteM (oracle p.1) 3 p.2.coordinates) p.2)

end OSRM

/-! ## Stage-1 Balanced Allocator (routeOptimizer.ts, balanced branch)

Collectable bins are paired with their nearest station, sorted by
descending fill level, and distributed one by one in strict rotation
binsWithStation[i] -> activeSATs[i % count]. -/

section Balanced

variable {β : Type} [LinearOrderedField β] [FloorRing β]

/-- Pair each bin with its nearest station (stage-1 balanced mode,
lines 250-261). -/
def binsWithStation (d : β × β → β × β → β) (bins : List (SmartBin β))
    (stations : List (CompactStation β)) : List (BinSt β) :=
  bins.filterMap (fun b =>
    (nearestBy (fun s => d (binPos b) (stationPos s)) stations).map
      (fun s => BinSt.mk b s))

/-- Strict round-robin distribution: element i goes to bucket i % k
(lines 266-275: satAssignments.get(activeSATs[idx % n].id).push(item)). -/
def roundRobinAssign {α : Type} (k : Nat) (items : List α) : List (List α) :=
  (List.range k).map (fun j => (items.enum.filter (fun p => p.1 % k == j)).map Prod.snd)

/-- The Balanced Allocator: the sorted pool distributed in strict rotation
across the active SATs; entry j is the point list of activeSATs[j]. -/
def balancedSatAssignments (d : β × β → β × β → β) (bins : List (SmartBin β))
    (stations : List (CompactStation β)) (sats : List (Vehicle β)) :
    List (List (BinSt β)) :=
  roundRobinAssign (sats.filter (fun v => v.status == VStatus.active)).length
    (sortDescBy (fun p : BinSt β => p.bin.currentLevel)
      (binsWithStation d (selectBinsToCollect bins) stations))

end Balanced

theorem length_filter_mod (k j : Nat) (hk : 0 < k) (hj : j < k) :
    ∀ n, ((List.range n).filter (fun i => i % k == j)).length =
      n / k + if j < n % k then 1 else 0 := by
  intro n
  induction n with
  | zero => simp
  | succ n ih =>
    obtain ⟨q, r, hr, hn⟩ : ∃ q r, r < k ∧ n = k * q + r :=
      ⟨n / k, n % k, Nat.mod_lt _ hk, (Nat.div_add_mod n k).symm⟩
    have hnk : n / k = q := by
      rw [hn, Nat.mul_add_div hk, Nat.div_eq_of_lt hr, Nat.add_zero]
    have hnm : n % k = r := by
      rw [hn, Nat.mul_add_mod, Nat.mod_eq_of_lt hr]
    have hsing : (List.filter (fun i => i % k == j) [n]).length
        = if r = j then 1 else 0 := by
      by_cases hrj : r = j
      · simp [List.filter_cons, hnm, hrj]
      · simp [List.filter_cons, hnm, hrj]
    rw [List.range_succ, List.filter_append, List.length_append, ih, hnk, hnm, hsing]
    rcases Nat.lt_or_ge (r + 1) k with hcase | hcase
    · have hdiv : (n + 1) / k = q := by
        rw [show n + 1 = k * q + (r + 1) from by omega, Nat.mul_add_div hk,
          Nat.div_eq_of_lt hcase, Nat.add_zero]
      have hmod : (n + 1) % k = r + 1 := by
        rw [show n + 1 = k * q + (r + 1) from by omega, Nat.mul_add_mod,
          Nat.mod_eq_of_lt hcase]
      rw [hdiv, hmod]
      split_ifs <;> omega
    · have hdiv : (n + 1) / k = q + 1 := by
        rw [show n + 1 = k * (q + 1) from by rw [Nat.mul_succ]; omega,
          Nat.mul_div_cancel_left _ hk]
      have hmod : (n + 1) % k = 0 := by
        rw [show n + 1 = k * (q + 1) from by rw [Nat.mul_succ]; omega, Nat.mul_mod_right]
      rw [hdiv, hmod]
      split_ifs <;> omega

theorem roundRobinAssign_getD_length {α : Type} (k : Nat) (items : List α)
    (j : Nat) (hj : j < k) :
    ((roundRobinAssign k items).getD j []).length =
      items.length / k + if j < items.length % k then 1 else 0 := by
  have hget : (roundRobinAssign k items).getD j [] =
      (items.enum.filter (fun p => p.1 % k == j)).map Prod.snd := by
    unfold roundRobinAssign
    rw [List.getD_eq_getElem?_getD, List.getElem?_map, List.getElem?_range hj]
    simp
  rw [hget, List.length_map, ← List.countP_eq_length_filter]
  have henum : List.countP (fun p => p.1 % k == j) items.enum =
      List.countP (fun i => i % k == j) (List.range items.length) := by
    rw [← List.enum_map_fst items, List.countP_map]
    rfl
  rw [henum, List.countP_eq_length_filter]
  exact length_filter_mod k j (by omega) hj items.length

/-! ## Claim C2: the sequencer returns a permutation and is greedy -/

/-- C2: for every start location and every finite list of points,
nearestNeighborTSP (with the haversine distance) returns a permutation of
exactly the input points, and each successive output element is a point of
minimum haversine distance from the current position among the
not-yet-chosen points. -/
theorem claim2_sequencer {α : Type} (pos : α → ℝ × ℝ) (start : ℝ × ℝ)
    (points : List α) :
    (nearestNeighborTSP havDist pos start points).Perm points ∧
      IsGreedy havDist pos start (nearestNeighborTSP havDist pos start points) :=
  ⟨nearestNeighborTSP_perm havDist pos start points,
   nearestNeighborTSP_greedy havDist pos start points⟩

/-! ## Claim C1: the capacity-constrained batcher -/

/-- A bin whose weight alone exceeds any reasonable vehicle capacity:
weight = (100/100) * 100 * 0.5 = 50. -/
def bigBin : SmartBin ℚ := ⟨"BIG", 0, 0, 100, 100⟩

/-- A weightless bin (fill level 0). -/
def tinyBin : SmartBin ℚ := ⟨"TINY", 0, 0, 100, 0⟩

/-- Input on which the batcher violates both claimed ceilings for a
vehicle capacity of 10. -/
def binsCE : List (SmartBin ℚ) := bigBin :: List.replicate 21 tinyBin

/-- C1 counterexample: for vehicle capacity 10 and the binsCE point list,
the batching loop emits a batch whose cumulative weight (50) exceeds the
capacity, and a batch with 21 > 20 points: the claimed batch invariants
fail as stated. -/
theorem claim1_counterexample :
    (∃ batch ∈ batchBins (10 : ℚ) binsCE, ¬ batchWeight batch ≤ 10) ∧
      (∃ batch ∈ batchBins (10 : ℚ) binsCE, ¬ batch.length ≤ 20) := by
  have hbb : batchBins (10 : ℚ) binsCE = [[bigBin], List.replicate 21 tinyBin] := by
    norm_num [batchBins, batchLoop, binsCE, List.replicate, binWeight, bigBin, tinyBin]
  constructor
  · refine ⟨[bigBin], by rw [hbb]; simp, ?_⟩
    norm_num [batchWeight, binWeight, bigBin]
  · refine ⟨List.replicate 21 tinyBin, by rw [hbb]; simp, ?_⟩
    simp

/-- C1 amended: provided every single point weight is at most the vehicle
capacity, every output batch of the batching loop has cumulative weight at
most the capacity, and the concatenation of the batches is exactly the
input list (each point placed exactly once); the 20-stop ceiling is not
enforced by this loop. -/
theorem claim1_batcher {β : Type} [LinearOrderedField β] [FloorRing β]
    (cap : β) (bins : List (SmartBin β))
    (hw : ∀ b ∈ bins, binWeight b ≤ cap) :
    (∀ batch ∈ batchBins cap bins, batchWeight batch ≤ cap) ∧
      (batchBins cap bins).flatten = bins := by
  constructor
  · intro batch hb
    refine batchLoop_weight cap bins [] 0 ?_ ?_ hw batch hb
    · simp [batchWeight]
    · intro h
      exact absurd rfl h
  · rw [batchBins, batchLoop_join]
    simp

/-- Witness bins for the amended batcher claim: weights 25 and 40, both
within capacity 100. -/
def binsW : List (SmartBin ℚ) := [⟨"W1", 0, 0, 100, 50⟩, ⟨"W2", 0, 0, 100, 80⟩]

/-- Witness for C1 amended at capacity 100 and binsW. -/
theorem claim1_batcher_witness :
    (∀ b ∈ binsW, binWeight b ≤ (100 : ℚ)) ∧
      ((∀ batch ∈ batchBins (100 : ℚ) binsW, batchWeight batch ≤ 100) ∧
        (batchBins (100 : ℚ) binsW).flatten = binsW) := by
  have hw : ∀ b ∈ binsW, binWeight b ≤ (100 : ℚ) := by
    intro b hb
    rcases List.mem_cons.mp hb with rfl | hb2
    · norm_num [binWeight]
    · have : b = ⟨"W2", 0, 0, 100, 80⟩ := by simpa [binsW] using hb2
      subst this
      norm_num [binWeight]
  exact ⟨hw, claim1_batcher 100 binsW hw⟩

/-! ## Claim C10: calculateTotalTime -/

/-- C10: calculateTotalTime returns minutes equal to the maximum SAT route
estimatedTime plus the maximum truck route estimatedTime (each 0 when that
tier is empty), the hours figure is capped at 20 while the minutes figure
is not, so when minutes exceed 1200 the two fields describe different
durations (hours strictly below minutes/60). -/
theorem claim10_total_time {β : Type} [LinearOrderedField β] [FloorRing β]
    (routes : List (OptimizedRoute β)) :
    (calculateTotalTime routes).1 =
      (if ¬(routes.filter (fun r => r.vehicleType == VehicleType.sat)).isEmpty then
        jsMaxOr0 ((routes.filter (fun r => r.vehicleType == VehicleType.sat)).map
          (fun r => r.estimatedTime)) else 0) +
      (if ¬(routes.filter (fun r => r.vehicleType == VehicleType.truck)).isEmpty then
        jsMaxOr0 ((routes.filter (fun r => r.vehicleType == VehicleType.truck)).map
          (fun r => r.estimatedTime)) else 0) ∧
    (calculateTotalTime routes).2 ≤ 20 ∧
    (1200 < (calculateTotalTime routes).1 →
      (calculateTotalTime routes).2 < (calculateTotalTime routes).1 / 60) := by
  refine ⟨rfl, min_le_right _ _, ?_⟩
  intro h
  have h2 : (calculateTotalTime routes).2 ≤ 20 := min_le_right _ _
  have h3 : (20 : β) < (calculateTotalTime routes).1 / 60 := by linarith
  linarith

/-- A SAT route taking 700 minutes (only type and time matter here). -/
def routeW1 : OptimizedRoute ℚ := ⟨"V1", .sat, [], 0, 700, 0, some 1, none, [], false⟩

/-- A truck route taking 600 minutes. -/
def routeW2 : OptimizedRoute ℚ := ⟨"T1", .truck, [], 0, 600, 0, none, none, [], false⟩

/-- Witness for C10 at a route set of 1300 combined minutes: the hours
figure underreports the duration. -/
theorem claim10_total_time_witness :
    (calculateTotalTime [routeW1, routeW2]).2 < (calculateTotalTime [routeW1, routeW2]).1 / 60 := by
  refine (claim10_total_time [routeW1, routeW2]).2.2 ?_
  norm_num +decide [calculateTotalTime, jsMaxOr0, routeW1, routeW2, List.filter]

/-! ## Claim C3: the 30-percent threshold waiver is defeated downstream -/

/-- The degenerate distance function used where distances are irrelevant. -/
def dZero : ℚ × ℚ → ℚ × ℚ → ℚ := fun _ _ => 0

/-- A bin below the collection threshold (fill level 20). -/
def binLowC3 : SmartBin ℚ := ⟨"BL", 0, 0, 100, 20⟩

def stC3 : CompactStation ℚ := ⟨"S1", 0, 0, 20000, 0⟩

def satC3 : Vehicle ℚ := ⟨"V1", 1000, .active⟩

def truckC3 : Vehicle ℚ := ⟨"T1", 10000, .active⟩

def dumpC3 : Dumpyard ℚ := ⟨"D1", "D", 0, 0, 100000, 0⟩

/-- C3 bug evidence: with a single bin at fill level 20 (below the 30
threshold), the threshold waiver selects it for collection, but
assignBinsToStations applies the below-30 skip again and drops it, so the
assignment is fully empty and the whole run returns zero routes even
though a pickup point, a facility and active vehicles exist. -/
theorem claim3_threshold_bug :
    selectBinsToCollect [binLowC3] = [binLowC3] ∧
    assignBinsToStations dZero (selectBinsToCollect [binLowC3]) [stC3] = [(stC3, [])] ∧
    generateOptimizedRoutesP9 dZero 12 [binLowC3] [stC3] [dumpC3] [satC3] [truckC3] =
      .ok [] := by
  refine ⟨?_, ?_, ?_⟩
  · norm_num [selectBinsToCollect, binLowC3, List.filter]
  · norm_num [selectBinsToCollect, assignBinsToStations, binLowC3, stC3, List.filter,
      List.foldl, nearestBy, updateFirst]
  · norm_num +decide [generateOptimizedRoutesP9, satPhase, truckPhase, satLoop, truckLoop,
      assignBinsToStations, selectBinsToCollect, binPoolOf, sortDescBy, insertDesc,
      nearestBy, updateFirst, wasteGet, wasteSet, wasteVal, listMax0, ceilDivNat,
      binLowC3, stC3, satC3, truckC3, dumpC3, List.filter, List.foldl]

/-! ## Claim C4: precondition failures -/

/-- C4: the run fails with a specific human-readable message exactly when
the bin list, the station list or the SAT list is empty or no SAT is
active, and with zero active SATs (the lists being nonempty) the error
names SAT unavailability; otherwise the run returns a route list. -/
theorem claim4_preconditions {β : Type} [LinearOrderedField β] [FloorRing β]
    (d : β × β → β × β → β) (hour : Nat) (bins : List (SmartBin β))
    (stations : List (CompactStation β)) (dumpyards : List (Dumpyard β))
    (sats trucks : List (Vehicle β)) :
    ((∃ msg, generateOptimizedRoutesP9 d hour bins stations dumpyards sats trucks =
        .error msg) ↔
      bins = [] ∨ stations = [] ∨ sats = [] ∨
        sats.filter (fun v => v.status == VStatus.active) = []) ∧
    (sats.filter (fun v => v.status == VStatus.active) = [] →
      bins ≠ [] → stations ≠ [] → sats ≠ [] →
      generateOptimizedRoutesP9 d hour bins stations dumpyards sats trucks =
        .error "No active SAT vehicles available for routing") := by
  simp only [generateOptimizedRoutesP9]
  split_ifs with h1 h2 h3 h4
  · exact ⟨⟨fun _ => Or.inl (List.isEmpty_iff.mp h1), fun _ => ⟨_, rfl⟩⟩,
      fun _ hb _ _ => absurd (List.isEmpty_iff.mp h1) hb⟩
  · exact ⟨⟨fun _ => Or.inr (Or.inl (List.isEmpty_iff.mp h2)), fun _ => ⟨_, rfl⟩⟩,
      fun _ _ hs _ => absurd (List.isEmpty_iff.mp h2) hs⟩
  · exact ⟨⟨fun _ => Or.inr (Or.inr (Or.inl (List.isEmpty_iff.mp h3))), fun _ => ⟨_, rfl⟩⟩,
      fun _ _ _ hv => absurd (List.isEmpty_iff.mp h3) hv⟩
  · exact ⟨⟨fun _ => Or.inr (Or.inr (Or.inr (List.isEmpty_iff.mp h4))), fun _ => ⟨_, rfl⟩⟩,
      fun _ _ _ _ => rfl⟩
  · constructor
    · constructor
      · rintro ⟨msg, hmsg⟩
        cases hmsg
      · rintro (h | h | h | h)
        · exact absurd (List.isEmpty_iff.mpr h) h1
        · exact absurd (List.isEmpty_iff.mpr h) h2
        · exact absurd (List.isEmpty_iff.mpr h) h3
        · exact absurd (List.isEmpty_iff.mpr h) h4
    · intro hact _ _ _
      exact absurd (List.isEmpty_iff.mpr hact) h4

/-- A SAT vehicle that is off duty. -/
def satOffC4 : Vehicle ℚ := ⟨"VX", 1000, .offDuty⟩

/-- Witness for C4: supplying one off-duty SAT (and otherwise valid data)
rejects the run with the SAT-unavailability message. -/
theorem claim4_preconditions_witness :
    generateOptimizedRoutesP9 dZero 12 [binLowC3] [stC3] [dumpC3] [satOffC4] [] =
      .error "No active SAT vehicles available for routing" := by
  refine (claim4_preconditions dZero 12 [binLowC3] [stC3] [dumpC3] [satOffC4] []).2
    ?_ (by simp) (by simp) (by simp)
  simp +decide [List.filter, satOffC4]

/-! ## Claim C6: the Balanced Allocator -/

/-- C6: in Balanced mode the collectable points are sorted by descending
fill level (the rotation pool is a permutation of the nearest-station
pairing, descending in fill level) and distributed in strict rotation
points[i] to vehicle[i % vehicleCount], so the point counts of any two
active vehicles differ by at most 1. -/
theorem claim6_balanced {β : Type} [LinearOrderedField β] [FloorRing β]
    (d : β × β → β × β → β) (bins : List (SmartBin β))
    (stations : List (CompactStation β)) (sats : List (Vehicle β))
    (hk : 0 < (sats.filter (fun v => v.status == VStatus.active)).length) :
    (sortDescBy (fun p : BinSt β => p.bin.currentLevel)
        (binsWithStation d (selectBinsToCollect bins) stations)).Perm
      (binsWithStation d (selectBinsToCollect bins) stations) ∧
    (sortDescBy (fun p : BinSt β => p.bin.currentLevel)
        (binsWithStation d (selectBinsToCollect bins) stations)).Sorted
      (fun a b => b.bin.currentLevel ≤ a.bin.currentLevel) ∧
    ∀ j1 j2, j1 < (sats.filter (fun v => v.status == VStatus.active)).length →
      j2 < (sats.filter (fun v => v.status == VStatus.active)).length →
      ((balancedSatAssignments d bins stations sats).getD j1 []).length ≤
        ((balancedSatAssignments d bins stations sats).getD j2 []).length + 1 := by
  refine ⟨sortDescBy_perm _ _, sortDescBy_sorted _ _, ?_⟩
  intro j1 j2 hj1 hj2
  unfold balancedSatAssignments
  rw [roundRobinAssign_getD_length _ _ j1 hj1, roundRobinAssign_getD_length _ _ j2 hj2]
  split_ifs <;> omega

def satW6a : Vehicle ℚ := ⟨"V1", 1000, .active⟩

def satW6b : Vehicle ℚ := ⟨"V2", 1000, .active⟩

/-- Witness for C6 with two active SATs, three bins and one station. -/
theorem claim6_balanced_witness :
    (sortDescBy (fun p : BinSt ℚ => p.bin.currentLevel)
        (binsWithStation dZero (selectBinsToCollect [binLowC3, bigBin, tinyBin]) [stC3])).Perm
      (binsWithStation dZero (selectBinsToCollect [binLowC3, bigBin, tinyBin]) [stC3]) ∧
    (sortDescBy (fun p : BinSt ℚ => p.bin.currentLevel)
        (binsWithStation dZero (selectBinsToCollect [binLowC3, bigBin, tinyBin]) [stC3])).Sorted
      (fun a b => b.bin.currentLevel ≤ a.bin.currentLevel) ∧
    ∀ j1 j2, j1 < ([satW6a, satW6b].filter (fun v => v.status == VStatus.active)).length →
      j2 < ([satW6a, satW6b].filter (fun v => v.status == VStatus.active)).length →
      ((balancedSatAssignments dZero [binLowC3, bigBin, tinyBin] [stC3]
          [satW6a, satW6b]).getD j1 []).length ≤
        ((balancedSatAssignments dZero [binLowC3, bigBin, tinyBin] [stC3]
          [satW6a, satW6b]).getD j2 []).length + 1 :=
  claim6_balanced dZero [binLowC3, bigBin, tinyBin] [stC3] [satW6a, satW6b]
    (by simp +decide [List.filter, satW6a, satW6b])

/-! ## Claim C5: resolver behaviour under total external failure -/

/-- An oracle on which every fetch attempt yields a non-ok status. -/
def failOracle : Nat → OSRMOutcome ℚ := fun _ => .httpError

/-- C5 counterexample: when the external service fails on every attempt,
getOSRMRoute does not return a result at all (in particular none whose
distance is the straight-line haversine sum): it propagates the request
failure after exhausting its retries. -/
theorem claim5_counterexample :
    getOSRMRouteM failOracle 3 [((0 : ℚ), 0), (1, 1)] = .error .requestFailed ∧
      ∀ res : OSRMResult ℚ, getOSRMRouteM failOracle 3 [((0 : ℚ), 0), (1, 1)] ≠
        .ok (some res) := by
  have h : getOSRMRouteM failOracle 3 [((0 : ℚ), 0), (1, 1)] = .error .requestFailed := by
    rfl
  refine ⟨h, fun res hres => ?_⟩
  rw [h] at hres
  cases hres

theorem getOSRMRouteAux_no_result {β : Type} [LinearOrderedField β] [FloorRing β]
    (responses : Nat → OSRMOutcome β) (retries : Nat)
    (hfail : ∀ a rs, responses a = .success rs → rs = []) :
    ∀ fuel attempt (res : OSRMResult β),
      getOSRMRouteAux responses retries fuel attempt ≠ .ok (some res) := by
  intro fuel
  induction fuel with
  | zero =>
    intro attempt res h
    simp [getOSRMRouteAux] at h
  | succ n ih =>
    intro attempt res h
    rcases hresp : responses attempt with _ | _ | _ | rs
    · simp only [getOSRMRouteAux, hresp] at h
      split at h
      · exact ih _ _ h
      · cases h
    · simp only [getOSRMRouteAux, hresp] at h
      split at h
      · exact ih _ _ h
      · cases h
    · simp only [getOSRMRouteAux, hresp] at h
      split at h
      · exact ih _ _ h
      · cases h
    · have hrs : rs = [] := hfail _ _ hresp
      subst hrs
      simp only [getOSRMRouteAux, hresp, bestOSRMRoute] at h
      exact ih _ _ h

theorem getOSRMRouteM_no_result {β : Type} [LinearOrderedField β] [FloorRing β]
    (responses : Nat → OSRMOutcome β)
    (hfail : ∀ a rs, responses a = .success rs → rs = [])
    (coords : List (β × β)) (res : OSRMResult β) :
    getOSRMRouteM responses 3 coords ≠ .ok (some res) := by
  intro h
  unfold getOSRMRouteM at h
  split at h
  · cases h
  · exact getOSRMRouteAux_no_result responses 3 hfail _ _ res h

theorem applyFetchResult_no_result {β : Type} [LinearOrderedField β] [FloorRing β]
    (res : Except OSRMFailure (Option (OSRMResult β)))
    (hres : ∀ o, res ≠ .ok (some o)) (r : OptimizedRoute β) :
    applyFetchResult res r = { r with osrmFetched := true } := by
  cases res with
  | ok v =>
    cases v with
    | none => rfl
    | some o => exact absurd rfl (hres o)
  | error e => rfl

theorem fetch_enumFrom_fail {β : Type} [LinearOrderedField β] [FloorRing β]
    (oracle : Nat → Nat → OSRMOutcome β)
    (hfail : ∀ i a rs, oracle i a = .success rs → rs = [])
    (routes : List (OptimizedRoute β)) :
    ∀ n, (List.enumFrom n routes).map (fun p =>
        if p.2.osrmFetched then p.2
        else applyFetchResult (getOSRMRouteM (oracle p.1) 3 p.2.coordinates) p.2) =
      routes.map (fun r => { r with osrmFetched := true }) := by
  induction routes with
  | nil => intro n; rfl
  | cons r rest ih =>
    intro n
    simp only [List.enumFrom, List.map]
    rw [ih (n + 1)]
    congr 1
    by_cases hf : r.osrmFetched
    · rw [if_pos hf]
      cases r
      simp_all
    · rw [if_neg hf]
      exact applyFetchResult_no_result _
        (fun o => getOSRMRouteM_no_result (oracle n) (hfail n) r.coordinates o) r

/-- C5 amended: when the external service fails on every attempt,
getOSRMRoute never returns a route result (it propagates the failure or
returns null), and fetchOSRMRoutesProgressively leaves every route with
its original straight-line distance, duration and coordinates, only
marking its osrmFetched flag as attempted; every route of the set is
processed, so the run completes with the full route set. -/
theorem claim5_degraded {β : Type} [LinearOrderedField β] [FloorRing β]
    (oracle : Nat → Nat → OSRMOutcome β) (routes : List (OptimizedRoute β))
    (hfail : ∀ i a rs, oracle i a = OSRMOutcome.success rs → rs = []) :
    fetchOSRMRoutesProgressivelyM oracle routes =
      routes.map (fun r => { r with osrmFetched := true }) ∧
    ∀ i (coords : List (β × β)) (res : OSRMResult β),
      getOSRMRouteM (oracle i) 3 coords ≠ .ok (some res) := by
  constructor
  · unfold fetchOSRMRoutesProgressivelyM
    exact fetch_enumFrom_fail oracle hfail routes 0
  · intro i coords res
    exact getOSRMRouteM_no_result (oracle i) (hfail i) coords res

/-- The all-attempts-fail oracle indexed per route. -/
def failOracle2 : Nat → Nat → OSRMOutcome ℚ := fun _ _ => .httpError

/-- Witness for C5 amended: one unfetched route, every attempt failing;
the route keeps its values and is marked attempted. -/
theorem claim5_degraded_witness :
    fetchOSRMRoutesProgressivelyM failOracle2 [routeW1] =
      [⟨"V1", .sat, [], 0, 700, 0, some 1, none, [], true⟩] := by
  have h := (claim5_degraded failOracle2 [routeW1]
    (fun i a rs hc => by cases hc)).1
  simpa [routeW1] using h

/-! ## Claim C8: tour length of the sequencer -/

theorem havDist_equator_le {a b : ℝ} (hab : a ≤ b) (h : b - a < 180) :
    havDist (0, a) (0, b) = havConst * (b - a) := by
  have h1 : |b - a| = b - a := abs_of_nonneg (by linarith)
  have h2 := haversine_equator a b (by rw [h1]; linarith)
  rw [h1] at h2
  simpa [havDist] using h2

theorem havDist_equator_ge {a b : ℝ} (hab : b ≤ a) (h : a - b < 180) :
    havDist (0, a) (0, b) = havConst * (a - b) := by
  rw [havDist_symm]
  exact havDist_equator_le hab h

/-- C8 amended: for inputs of at most two points the greedy output tour is
no longer than the tour in the original input order (the haversine metric
being symmetric); for three or more points no such guarantee holds. -/
theorem claim8_small_inputs {α : Type} (pos : α → ℝ × ℝ) (start : ℝ × ℝ)
    (points : List α) (h : points.length ≤ 2) :
    legSum havDist (start :: (nearestNeighborTSP havDist pos start points).map pos) ≤
      legSum havDist (start :: points.map pos) := by
  match points with
  | [] => simp [nearestNeighborTSP]
  | [a] => simp [nearestNeighborTSP, extractMin]
  | [a, b] =>
    have hout : nearestNeighborTSP havDist pos start [a, b] =
        if havDist start (pos b) < havDist start (pos a) then [b, a] else [a, b] := by
      split_ifs with hlt
      · simp [nearestNeighborTSP, extractMin, hlt]
      · simp [nearestNeighborTSP, extractMin, hlt]
    rw [hout]
    split_ifs with hlt
    · simp only [List.map, legSum]
      have hsymm := havDist_symm (pos a) (pos b)
      linarith
    · exact le_refl _
  | a :: b :: c :: rest => simp at h

/-- Witness for C8 amended at two equator points. -/
theorem claim8_small_inputs_witness :
    legSum havDist (((0 : ℝ), (0 : ℝ)) :: (nearestNeighborTSP havDist
        (fun p : ℝ × ℝ => p) ((0 : ℝ), (0 : ℝ))
        [((0 : ℝ), (1 : ℝ)), ((0 : ℝ), (2 : ℝ))]).map (fun p => p)) ≤
      legSum havDist (((0 : ℝ), (0 : ℝ)) ::
        [((0 : ℝ), (1 : ℝ)), ((0 : ℝ), (2 : ℝ))].map (fun p => p)) :=
  claim8_small_inputs (fun p => p) (0, 0) [(0, 1), (0, 2)] (by simp)

noncomputable def ptStart : ℝ × ℝ := (0, 0)

noncomputable def ptA : ℝ × ℝ := (0, -1)

noncomputable def ptB : ℝ × ℝ := (0, 9 / 10)

noncomputable def ptC : ℝ × ℝ := (0, 2)

/-- C8 counterexample: on the equator points at longitudes -1, 0.9, 2
visited from longitude 0, the greedy output order (0.9, 2, -1) has tour
length 5 times havConst, strictly longer than the input order tour of 4
times havConst: the claimed inequality fails as stated. -/
theorem claim8_counterexample :
    ¬ (legSum havDist (ptStart :: (nearestNeighborTSP havDist (fun p : ℝ × ℝ => p) ptStart
          [ptA, ptB, ptC]).map (fun p => p)) ≤
        legSum havDist (ptStart :: [ptA, ptB, ptC].map (fun p => p))) := by
  have hC := havConst_pos
  have vSA : havDist ptStart ptA = havConst * 1 := by
    show havDist (0, 0) (0, -1) = _
    rw [havDist_equator_ge (by norm_num) (by norm_num)]
    norm_num
  have vSB : havDist ptStart ptB = havConst * (9 / 10) := by
    show havDist (0, 0) (0, 9 / 10) = _
    rw [havDist_equator_le (by norm_num) (by norm_num)]
    norm_num
  have vSC : havDist ptStart ptC = havConst * 2 := by
    show havDist (0, 0) (0, 2) = _
    rw [havDist_equator_le (by norm_num) (by norm_num)]
    norm_num
  have vBA : havDist ptB ptA = havConst * (19 / 10) := by
    show havDist (0, 9 / 10) (0, -1) = _
    rw [havDist_equator_ge (by norm_num) (by norm_num)]
    norm_num
  have vBC : havDist ptB ptC = havConst * (11 / 10) := by
    show havDist (0, 9 / 10) (0, 2) = _
    rw [havDist_equator_le (by norm_num) (by norm_num)]
    norm_num
  have vCA : havDist ptC ptA = havConst * 3 := by
    show havDist (0, 2) (0, -1) = _
    rw [havDist_equator_ge (by norm_num) (by norm_num)]
    norm_num
  have vAB : havDist ptA ptB = havConst * (19 / 10) := by
    show havDist (0, -1) (0, 9 / 10) = _
    rw [havDist_equator_le (by norm_num) (by norm_num)]
    norm_num
  have hout : nearestNeighborTSP havDist (fun p : ℝ × ℝ => p) ptStart [ptA, ptB, ptC] =
      [ptB, ptC, ptA] := by
    have c1 : havDist ptStart ptB < havDist ptStart ptA := by
      rw [vSB, vSA]
      nlinarith
    have c2 : ¬ (havDist ptStart ptC < havDist ptStart ptB) := by
      rw [vSC, vSB]
      nlinarith
    have c3 : havDist ptB ptC < havDist ptB ptA := by
      rw [vBC, vBA]
      nlinarith
    simp [nearestNeighborTSP, extractMin, c1, c2, c3]
  rw [hout]
  simp only [List.map, legSum]
  rw [vSB, vBC, vCA, vSA, vAB]
  push_neg
  nlinarith

/-! ## Structural invariants of the part_009 pipeline -/

section PipelineInvariants

variable {β : Type} [LinearOrderedField β] [FloorRing β]

theorem satLoop_routes_sat (d : β × β → β × β → β) (hour : Nat) :
    ∀ (sats : List (Vehicle β)) pool times waste,
      ∀ r ∈ (satLoop d hour sats pool times waste).1,
        r.vehicleType = VehicleType.sat ∧ r.startTime = 0 ∧ r.tripNumber = some 1 := by
  intro sats
  induction sats with
  | nil =>
    intro pool times waste r hr
    simp [satLoop] at hr
  | cons sat rest ih =>
    intro pool times waste r hr
    rcases pool with _ | ⟨first, poolRest⟩
    · simp only [satLoop] at hr
      exact ih _ _ _ r hr
    · simp only [satLoop] at hr
      split at hr
      · exact ih _ _ _ r hr
      · split at hr
        · exact ih _ _ _ r hr
        · rcases List.mem_cons.mp hr with rfl | hr2
          · exact ⟨rfl, rfl, rfl⟩
          · exact ih _ _ _ r hr2

theorem satLoop_times (d : β × β → β × β → β) (hour : Nat) :
    ∀ (sats : List (Vehicle β)) pool times waste,
      (satLoop d hour sats pool times waste).2.1 =
        times ++ ((satLoop d hour sats pool times waste).1).map
          (fun r => r.estimatedTime) := by
  intro sats
  induction sats with
  | nil =>
    intro pool times waste
    simp [satLoop]
  | cons sat rest ih =>
    intro pool times waste
    rcases pool with _ | ⟨first, poolRest⟩
    · simp only [satLoop]
      exact ih _ _ _
    · simp only [satLoop]
      split
      · exact ih _ _ _
      · split
        · exact ih _ _ _
        · simp only [List.map_cons]
          rw [ih]
          simp

theorem truckLoop_routes_truck (d : β × β → β × β → β) (hour : Nat)
    (dumps : List (Dumpyard β)) (startT : β) :
    ∀ (trucks : List (Vehicle β)) pool,
      ∀ r ∈ truckLoop d hour dumps startT trucks pool,
        r.vehicleType = VehicleType.truck ∧ r.startTime = startT := by
  intro trucks
  induction trucks with
  | nil =>
    intro pool r hr
    simp [truckLoop] at hr
  | cons truck rest ih =>
    intro pool r hr
    rcases pool with _ | ⟨sw, poolRest⟩
    · simp only [truckLoop] at hr
      exact ih _ r hr
    · simp only [truckLoop] at hr
      split at hr
      · exact ih _ r hr
      · split at hr
        · exact ih _ r hr
        · split at hr
          · exact ih _ r hr
          · rcases List.mem_cons.mp hr with rfl | hr2
            · exact ⟨rfl, rfl⟩
            · exact ih _ r hr2

theorem collectStations_sel_mem (cap : β) :
    ∀ n load (pool : List (CompactStation β × β)),
      ∀ s ∈ (collectStations cap n load pool).1, ∃ w, (s, w) ∈ pool := by
  intro n load pool
  induction pool generalizing n load with
  | nil =>
    intro s hs
    cases n <;> simp [collectStations] at hs
  | cons sw rest ih =>
    intro s hs
    cases n with
    | zero => simp [collectStations] at hs
    | succ m =>
      simp only [collectStations] at hs
      split at hs
      · rcases ih _ _ s hs with ⟨w, hw⟩
        exact ⟨w, List.mem_cons_of_mem _ hw⟩
      · rcases List.mem_cons.mp hs with rfl | hs2
        · exact ⟨sw.2, by simp⟩
        · rcases ih _ _ s hs2 with ⟨w, hw⟩
          exact ⟨w, List.mem_cons_of_mem _ hw⟩

theorem collectStations_rest_mem (cap : β) :
    ∀ n load (pool : List (CompactStation β × β)),
      ∀ p ∈ (collectStations cap n load pool).2.2, p ∈ pool := by
  intro n load pool
  induction pool generalizing n load with
  | nil =>
    intro p hp
    cases n <;> simp [collectStations] at hp
  | cons sw rest ih =>
    intro p hp
    cases n with
    | zero =>
      simp only [collectStations] at hp
      exact hp
    | succ m =>
      simp only [collectStations] at hp
      split at hp
      · exact List.mem_cons_of_mem _ (ih _ _ p hp)
      · exact List.mem_cons_of_mem _ (ih _ _ p hp)

theorem truckLoop_station_stops (d : β × β → β × β → β) (hour : Nat)
    (dumps : List (Dumpyard β)) (startT : β) :
    ∀ (trucks : List (Vehicle β)) pool,
      ∀ r ∈ truckLoop d hour dumps startT trucks pool,
        ∀ stop ∈ r.route, stop.type = StopType.compactStation →
          ∃ s w, (s, w) ∈ pool ∧ stop.id = s.id := by
  intro trucks
  induction trucks with
  | nil =>
    intro pool r hr
    simp [truckLoop] at hr
  | cons truck rest ih =>
    intro pool r hr
    rcases pool with _ | ⟨sw, poolRest⟩
    · intro stop hstop htype
      rcases ih _ r hr stop hstop htype with ⟨s, w, hmem, hid⟩
      cases hmem
    · simp only [truckLoop] at hr
      split at hr
      · exact ih _ r hr
      · split at hr
        · intro stop hstop htype
          rcases ih _ r hr stop hstop htype with ⟨s, w, hmem, hid⟩
          exact ⟨s, w, collectStations_rest_mem truck.capacity _ _ _ _ hmem, hid⟩
        · split at hr
          · intro stop hstop htype
            rcases ih _ r hr stop hstop htype with ⟨s, w, hmem, hid⟩
            exact ⟨s, w, collectStations_rest_mem truck.capacity _ _ _ _ hmem, hid⟩
          · rcases List.mem_cons.mp hr with rfl | hr2
            · intro stop hstop htype
              rcases List.mem_cons.mp hstop with rfl | hstop2
              · cases htype
              · rcases List.mem_append.mp hstop2 with hstop3 | hstop4
                · rcases List.mem_map.mp hstop3 with ⟨s, hs, rfl⟩
                  have hs2 := (nearestNeighborTSP_perm d stationPos _ _).mem_iff.mp hs
                  rcases collectStations_sel_mem truck.capacity _ _ _ s hs2 with ⟨w, hw⟩
                  exact ⟨s, w, hw, rfl⟩
                · have heq := List.mem_singleton.mp hstop4
                  subst heq
                  cases htype
            · intro stop hstop htype
              rcases ih _ r hr2 stop hstop htype with ⟨s, w, hmem, hid⟩
              exact ⟨s, w, collectStations_rest_mem truck.capacity _ _ _ _ hmem, hid⟩

theorem satPhase_routes_sat (d : β × β → β × β → β) (hour : Nat)
    (bins : List (SmartBin β)) (stations : List (CompactStation β))
    (sats : List (Vehicle β)) :
    ∀ r ∈ (satPhase d hour bins stations sats).1,
      r.vehicleType = VehicleType.sat ∧ r.startTime = 0 ∧ r.tripNumber = some 1 := by
  intro r hr
  exact satLoop_routes_sat d hour _ _ _ _ r (by simpa [satPhase] using hr)

theorem satPhase_times (d : β × β → β × β → β) (hour : Nat)
    (bins : List (SmartBin β)) (stations : List (CompactStation β))
    (sats : List (Vehicle β)) :
    (satPhase d hour bins stations sats).2.1 =
      ((satPhase d hour bins stations sats).1).map (fun r => r.estimatedTime) := by
  simp only [satPhase]
  rw [satLoop_times]
  simp

end PipelineInvariants

/-! ## Claim C9: only stations with positive accumulated waste get trucks -/

/-- C9: in the final-stage truck allocation, every compact-station stop of
every truck route belongs to a station whose accumulated waste (initial
level plus simulated first-tier deliveries) is strictly positive; a
station with zero accumulated waste never appears in any truck route. -/
theorem truckPhase_station_stops {β : Type} [LinearOrderedField β] [FloorRing β]
    (d : β × β → β × β → β) (hour : Nat) (stations : List (CompactStation β))
    (dumps : List (Dumpyard β)) (trucks : List (Vehicle β))
    (times : List β) (waste : List (String × β)) :
    ∀ r ∈ truckPhase d hour stations dumps trucks times waste,
      ∀ stop ∈ r.route, stop.type = StopType.compactStation →
        ∃ s, s ∈ stations ∧ s.id = stop.id ∧ 0 < wasteVal waste s := by
  intro r hr stop hstop htype
  have ht2 : r ∈ truckLoop d hour dumps (listMax0 times) trucks
      (sortDescBy (fun p : CompactStation β × β => p.2)
        ((stations.map (fun s => (s, wasteVal waste s))).filter (fun p => 0 < p.2))) := by
    simpa [truckPhase] using hr
  rcases truckLoop_station_stops d hour _ _ _ _ r ht2 stop hstop htype with
    ⟨s, w, hmem, hid⟩
  have hmem2 := (sortDescBy_perm (fun p : CompactStation β × β => p.2) _).mem_iff.mp hmem
  rcases List.mem_filter.mp hmem2 with ⟨hmem3, hpos⟩
  rcases List.mem_map.mp hmem3 with ⟨s0, hs0, heq⟩
  have hs_eq : s0 = s := congrArg Prod.fst heq
  have hw_eq : wasteVal waste s0 = w := congrArg Prod.snd heq
  subst hs_eq
  refine ⟨s0, hs0, hid.symm, ?_⟩
  rw [hw_eq]
  simpa using hpos

theorem claim9_truck_waste {β : Type} [LinearOrderedField β] [FloorRing β]
    (d : β × β → β × β → β) (hour : Nat) (bins : List (SmartBin β))
    (stations : List (CompactStation β)) (dumpyards : List (Dumpyard β))
    (sats trucks : List (Vehicle β)) (rs : List (OptimizedRoute β))
    (h : generateOptimizedRoutesP9 d hour bins stations dumpyards sats trucks = .ok rs) :
    ∀ r ∈ rs, r.vehicleType = VehicleType.truck →
      ∀ stop ∈ r.route, stop.type = StopType.compactStation →
        ∃ s, s ∈ stations ∧ s.id = stop.id ∧
          0 < wasteVal (satPhase d hour bins stations sats).2.2 s := by
  simp only [generateOptimizedRoutesP9] at h
  by_cases h1 : bins.isEmpty
  · rw [if_pos h1] at h; cases h
  rw [if_neg h1] at h
  by_cases h2 : stations.isEmpty
  · rw [if_pos h2] at h; cases h
  rw [if_neg h2] at h
  by_cases h3 : sats.isEmpty
  · rw [if_pos h3] at h; cases h
  rw [if_neg h3] at h
  by_cases h4 : (sats.filter (fun v => v.status == VStatus.active)).isEmpty
  · rw [if_pos h4] at h; cases h
  rw [if_neg h4] at h
  cases h
  intro r hr htruck stop hstop htype
  rcases List.mem_append.mp hr with hs | ht
  · have := (satLoop_routes_sat d hour _ _ _ _ r (by simpa [satPhase] using hs)).1
    rw [htruck] at this
    cases this
  · revert ht
    split_ifs with hc hd
    · intro ht
      exact truckPhase_station_stops d hour stations _ _ _ _ r ht stop hstop htype
    · intro ht
      exact truckPhase_station_stops d hour stations _ _ _ _ r ht stop hstop htype
    · intro ht
      simp at ht

/-! ## Claim C7: startTime scheduling across the two tiers -/

/-- Ids of the compact stations visited by a route. -/
def visitedStationIds {β : Type} (r : OptimizedRoute β) : List String :=
  (r.route.filter (fun st => st.type == StopType.compactStation)).map (fun st => st.id)

/-- Completion times of the first-tier trips that feed the stations
visited by route r, as the claim describes them. -/
def satFeedCompletions {β : Type} [LinearOrderedField β] [FloorRing β]
    (rs : List (OptimizedRoute β)) (r : OptimizedRoute β) : List β :=
  (rs.filter (fun q => q.vehicleType == VehicleType.sat &&
    (match q.targetStationId with
     | some sid => (visitedStationIds r).contains sid
     | none => false))).map (fun q => q.startTime + q.estimatedTime)

/-- The scheduling property claimed for a produced route set: first-tier
first trips start at 0, and each truck route starts at the maximum
completion time over the first-tier trips feeding its visited stations. -/
def truckStartTimeClaim {β : Type} [LinearOrderedField β] [FloorRing β]
    (rs : List (OptimizedRoute β)) : Prop :=
  (∀ r ∈ rs, r.vehicleType = VehicleType.sat → r.tripNumber = some 1 →
    r.startTime = 0) ∧
  ∀ r ∈ rs, r.vehicleType = VehicleType.truck →
    r.startTime = listMax0 (satFeedCompletions rs r)

/-- C7 amended: every first-tier route of a run starts at time 0, and
every second-tier route starts at the maximum completion time over ALL
first-tier trips of the run (0 when there are none) — the global maximum,
not the maximum restricted to the stations the truck visits. -/
theorem claim7_start_times {β : Type} [LinearOrderedField β] [FloorRing β]
    (d : β × β → β × β → β) (hour : Nat) (bins : List (SmartBin β))
    (stations : List (CompactStation β)) (dumpyards : List (Dumpyard β))
    (sats trucks : List (Vehicle β)) (rs : List (OptimizedRoute β))
    (h : generateOptimizedRoutesP9 d hour bins stations dumpyards sats trucks = .ok rs) :
    (∀ r ∈ rs, r.vehicleType = VehicleType.sat → r.startTime = 0) ∧
    (∀ r ∈ rs, r.vehicleType = VehicleType.truck →
      r.startTime = listMax0 ((rs.filter (fun q => q.vehicleType == VehicleType.sat)).map
        (fun q => q.startTime + q.estimatedTime))) := by
  simp only [generateOptimizedRoutesP9] at h
  by_cases h1 : bins.isEmpty
  · rw [if_pos h1] at h; cases h
  rw [if_neg h1] at h
  by_cases h2 : stations.isEmpty
  · rw [if_pos h2] at h; cases h
  rw [if_neg h2] at h
  by_cases h3 : sats.isEmpty
  · rw [if_pos h3] at h; cases h
  rw [if_neg h3] at h
  by_cases h4 : (sats.filter (fun v => v.status == VStatus.active)).isEmpty
  · rw [if_pos h4] at h; cases h
  rw [if_neg h4] at h
  · cases h
    have htrfilter : ∀ dumpsA : List (Dumpyard β),
        (truckPhase d hour stations dumpsA
          (trucks.filter (fun v => v.status == VStatus.active))
          (satPhase d hour bins stations sats).2.1
          (satPhase d hour bins stations sats).2.2).filter
          (fun q => q.vehicleType == VehicleType.sat) = [] := by
      intro dumpsA
      apply List.filter_eq_nil_iff.mpr
      intro a ha
      have := (truckLoop_routes_truck d hour _ _ _ _ a
        (by simpa [truckPhase] using ha)).1
      simp [this]
    have hsatfilter : ((satPhase d hour bins stations sats).1).filter
        (fun q => q.vehicleType == VehicleType.sat) =
        (satPhase d hour bins stations sats).1 :=
      List.filter_eq_self.mpr (fun a ha => by
        simp [(satPhase_routes_sat d hour bins stations sats a ha).1])
    have hfilter :
        ((satPhase d hour bins stations sats).1 ++
          (if ¬(trucks.filter (fun v => v.status == VStatus.active)).isEmpty ∧
              ¬stations.isEmpty then
            truckPhase d hour stations
              (if dumpyards.isEmpty then [defaultDumpyard] else dumpyards)
              (trucks.filter (fun v => v.status == VStatus.active))
              (satPhase d hour bins stations sats).2.1
              (satPhase d hour bins stations sats).2.2
          else [])).filter (fun q => q.vehicleType == VehicleType.sat) =
          (satPhase d hour bins stations sats).1 := by
      rw [List.filter_append, hsatfilter]
      split_ifs with hc hd
      · rw [htrfilter, List.append_nil]
      · rw [htrfilter, List.append_nil]
      · simp
    constructor
    · intro r hr hsat
      rcases List.mem_append.mp hr with hs | ht
      · exact (satPhase_routes_sat d hour bins stations sats r hs).2.1
      · revert ht
        split_ifs with hc hd
        · intro ht
          have := (truckLoop_routes_truck d hour _ _ _ _ r
            (by simpa [truckPhase] using ht)).1
          rw [hsat] at this
          cases this
        · intro ht
          have := (truckLoop_routes_truck d hour _ _ _ _ r
            (by simpa [truckPhase] using ht)).1
          rw [hsat] at this
          cases this
        · intro ht
          simp at ht
    · intro r hr htruck
      rw [hfilter]
      have hmap : ((satPhase d hour bins stations sats).1).map
          (fun q => q.startTime + q.estimatedTime) =
          ((satPhase d hour bins stations sats).1).map (fun q => q.estimatedTime) :=
        List.map_congr_left (fun a ha => by
          rw [(satPhase_routes_sat d hour bins stations sats a ha).2.1, zero_add])
      rw [hmap, ← satPhase_times]
      rcases List.mem_append.mp hr with hs | ht
      · have := (satPhase_routes_sat d hour bins stations sats r hs).1
        rw [htruck] at this
        cases this
      · revert ht
        split_ifs with hc hd
        · intro ht
          exact (truckLoop_routes_truck d hour _ _ _ _ r
            (by simpa [truckPhase] using ht)).2
        · intro ht
          exact (truckLoop_routes_truck d hour _ _ _ _ r
            (by simpa [truckPhase] using ht)).2
        · intro ht
          simp at ht

/-- A bin at fill level 50 colocated with station stC3. -/
def bin50 : SmartBin ℚ := ⟨"B1", 0, 0, 100, 50⟩

/-- The SAT route the witness run produces. -/
def satRouteW : OptimizedRoute ℚ :=
  ⟨"V1", .sat,
    [⟨0, 0, .compactStation, "S1", .pickup⟩, ⟨0, 0, .smartbin, "B1", .pickup⟩,
      ⟨0, 0, .compactStation, "S1", .dropoff⟩],
    0, 0, 0, some 1, some "S1", [(0, 0), (0, 0), (0, 0)], false⟩

/-- The truck route the witness run produces. -/
def truckRouteW : OptimizedRoute ℚ :=
  ⟨"T1", .truck,
    [⟨0, 0, .dumpyard, "D1", .pickup⟩, ⟨0, 0, .compactStation, "S1", .pickup⟩,
      ⟨0, 0, .dumpyard, "D1", .dropoff⟩],
    0, 0, 0, none, none, [(0, 0), (0, 0), (0, 0)], false⟩

/-- Full evaluation of the witness run: one bin, one station, one active
SAT and one active truck with the degenerate distance function. -/
theorem runW_eval :
    generateOptimizedRoutesP9 dZero 12 [bin50] [stC3] [dumpC3] [satC3] [truckC3] =
      .ok [satRouteW, truckRouteW] := by
  norm_num +decide [generateOptimizedRoutesP9, satPhase, truckPhase, satLoop, truckLoop,
    collectBins, collectStations, assignBinsToStations, selectBinsToCollect, binPoolOf,
    sortDescBy, insertDesc, nearestBy, updateFirst, wasteGet, wasteSet, wasteVal,
    nearestNeighborTSP, extractMin, legSum, binPos, stationPos, dumpPos, binWeight,
    jsRound, listMax0, ceilDivNat, isPeakHour, MAX_STOPS_PER_SAT, MAX_STATIONS_PER_TRUCK,
    dZero, bin50, stC3, satC3, truckC3, dumpC3, satRouteW, truckRouteW,
    List.filter, List.foldl]

/-- Witness for C9 at the witness run, instantiated at the truck route and
its station stop. -/
theorem claim9_truck_waste_witness :
    ∃ s, s ∈ [stC3] ∧
      s.id = (⟨0, 0, .compactStation, "S1", .pickup⟩ : RouteStop ℚ).id ∧
      0 < wasteVal (satPhase dZero 12 [bin50] [stC3] [satC3]).2.2 s :=
  claim9_truck_waste dZero 12 [bin50] [stC3] [dumpC3] [satC3] [truckC3] _ runW_eval
    truckRouteW (List.mem_cons_of_mem satRouteW (List.mem_cons_self truckRouteW []))
    rfl ⟨0, 0, .compactStation, "S1", .pickup⟩
    (List.mem_cons_of_mem _ (List.mem_cons_self _ _)) rfl

/-- Bin at the first station of the C7 run (fill 50). -/
noncomputable def binC7A : SmartBin ℝ := ⟨"B1", 0, 0, 100, 50⟩

/-- Bin near the second station of the C7 run (fill 40). -/
noncomputable def binC7B : SmartBin ℝ := ⟨"B2", 0, 13 / 10, 100, 40⟩

/-- First station of the C7 run, at the origin. -/
noncomputable def stC7A : CompactStation ℝ := ⟨"S1", 0, 0, 20000, 0⟩

/-- Second station of the C7 run, one degree east on the equator. -/
noncomputable def stC7B : CompactStation ℝ := ⟨"S2", 0, 1, 20000, 0⟩

/-- First active SAT of the C7 run. -/
noncomputable def satC7A : Vehicle ℝ := ⟨"V1", 1000, .active⟩

/-- Second active SAT of the C7 run. -/
noncomputable def satC7B : Vehicle ℝ := ⟨"V2", 1000, .active⟩

/-- First active truck of the C7 run. -/
noncomputable def truckC7A : Vehicle ℝ := ⟨"T1", 10000, .active⟩

/-- Second active truck of the C7 run. -/
noncomputable def truckC7B : Vehicle ℝ := ⟨"T2", 10000, .active⟩

/-- Dumpyard of the C7 run, at the origin. -/
noncomputable def dumpC7 : Dumpyard ℝ := ⟨"D1", "Dump", 0, 0, 100000, 0⟩

/-- Estimated time of the second SAT trip of the C7 run (round trip
station S2 to bin B2 and back at the off-peak SAT speed, rounded). -/
noncomputable def satTimeC7 : ℝ :=
  ((⌊(havConst * (3 / 10) + havConst * (3 / 10)) / 25 * 60 + 1 / 2⌋ : ℤ) : ℝ)

/-- First SAT route of the C7 run: V1 serves bin B1 at station S1 in zero
time. -/
noncomputable def rSatC7A : OptimizedRoute ℝ :=
  ⟨"V1", .sat,
    [⟨0, 0, .compactStation, "S1", .pickup⟩, ⟨0, 0, .smartbin, "B1", .pickup⟩,
      ⟨0, 0, .compactStation, "S1", .dropoff⟩],
    0, 0, 0, some 1, some "S1", [(0, 0), (0, 0), (0, 0)], false⟩

/-- Second SAT route of the C7 run: V2 serves bin B2 from station S2 with
a strictly positive trip time. -/
noncomputable def rSatC7B : OptimizedRoute ℝ :=
  ⟨"V2", .sat,
    [⟨0, 1, .compactStation, "S2", .pickup⟩, ⟨0, 13 / 10, .smartbin, "B2", .pickup⟩,
      ⟨0, 1, .compactStation, "S2", .dropoff⟩],
    ((⌊(havConst * (3 / 10) + havConst * (3 / 10)) * 10 + 1 / 2⌋ : ℤ) : ℝ) / 10,
    satTimeC7, 0, some 1, some "S2", [(0, 1), (0, 13 / 10), (0, 1)], false⟩

/-- First truck route of the C7 run: T1 visits only station S1 (whose
feeding SAT trip completes at time 0) yet starts at the global maximum
SAT completion time. -/
noncomputable def rTruckC7A : OptimizedRoute ℝ :=
  ⟨"T1", .truck,
    [⟨0, 0, .dumpyard, "D1", .pickup⟩, ⟨0, 0, .compactStation, "S1", .pickup⟩,
      ⟨0, 0, .dumpyard, "D1", .dropoff⟩],
    0, 0, 0 ⊔ satTimeC7, none, none, [(0, 0), (0, 0), (0, 0)], false⟩

/-- Second truck route of the C7 run: T2 visits station S2. -/
noncomputable def rTruckC7B : OptimizedRoute ℝ :=
  ⟨"T2", .truck,
    [⟨0, 0, .dumpyard, "D1", .pickup⟩, ⟨0, 1, .compactStation, "S2", .pickup⟩,
      ⟨0, 0, .dumpyard, "D1", .dropoff⟩],
    ((⌊(havConst + havConst) * 10 + 1 / 2⌋ : ℤ) : ℝ) / 10,
    ((⌊(havConst + havConst) / 35 * 60 + 1 / 2⌋ : ℤ) : ℝ),
    0 ⊔ satTimeC7, none, none, [(0, 0), (0, 1), (0, 0)], false⟩

/-- The four routes the C7 run produces. -/
noncomputable def routesC7 : List (OptimizedRoute ℝ) :=
  [rSatC7A, rSatC7B, rTruckC7A, rTruckC7B]

/-- Full evaluation of the C7 run over the real haversine distance. -/
theorem runC7_eval :
    generateOptimizedRoutesP9 havDist 12 [binC7A, binC7B] [stC7A, stC7B] [dumpC7]
      [satC7A, satC7B] [truckC7A, truckC7B] = .ok routesC7 := by
  have hv2 : havDist ((0 : ℝ), 0) ((0 : ℝ), 0) = 0 := by
    rw [havDist_equator_le le_rfl (by norm_num)]
    ring
  have hv1 : havDist ((0 : ℝ), 0) ((0 : ℝ), 1) = havConst := by
    rw [havDist_equator_le (by norm_num) (by norm_num)]
    ring
  have hv1b : havDist ((0 : ℝ), 1) ((0 : ℝ), 0) = havConst := by
    rw [havDist_equator_ge (by norm_num) (by norm_num)]
    ring
  have hv3 : havDist ((0 : ℝ), 13 / 10) ((0 : ℝ), 0) = havConst * (13 / 10) := by
    rw [havDist_equator_ge (by norm_num) (by norm_num)]
    norm_num
  have hv4 : havDist ((0 : ℝ), 13 / 10) ((0 : ℝ), 1) = havConst * (3 / 10) := by
    rw [havDist_equator_ge (by norm_num) (by norm_num)]
    norm_num
  have hv5 : havDist ((0 : ℝ), 1) ((0 : ℝ), 13 / 10) = havConst * (3 / 10) := by
    rw [havDist_equator_le (by norm_num) (by norm_num)]
    norm_num
  have hc1 : ¬(havConst < 0) := not_lt.mpr havConst_pos.le
  have hc2 : havConst * (3 / 10) < havConst * (13 / 10) := by nlinarith [havConst_pos]
  norm_num +decide [-Prod.mk_zero_zero, generateOptimizedRoutesP9, satPhase, satLoop,
    collectBins, assignBinsToStations, selectBinsToCollect, binPoolOf, sortDescBy,
    insertDesc, nearestBy, updateFirst, wasteGet, wasteSet, nearestNeighborTSP,
    extractMin, legSum, binPos, stationPos, binWeight, jsRound, ceilDivNat, isPeakHour,
    MAX_STOPS_PER_SAT, truckPhase, truckLoop, collectStations, listMax0, wasteVal,
    MAX_STATIONS_PER_TRUCK, dumpPos, defaultDumpyard, satTimeC7,
    binC7A, binC7B, stC7A, stC7B, satC7A, satC7B, truckC7A, truckC7B, dumpC7,
    routesC7, rSatC7A, rSatC7B, rTruckC7A, rTruckC7B,
    hv1, hv1b, hv2, hv3, hv4, hv5, hc1, hc2, List.filter, List.foldl]

/-- C7 counterexample: on a run with two stations and two trucks, the
truck that visits only station S1 — whose feeding first-tier trip
completes at time 0 — nevertheless starts at the global maximum
completion time over all first-tier trips, which is at least 1; so the
claimed per-visited-station startTime property fails on an actual output
of generateOptimizedRoutesP9. -/
theorem claim7_counterexample :
    ∃ rs, generateOptimizedRoutesP9 havDist 12 [binC7A, binC7B] [stC7A, stC7B] [dumpC7]
      [satC7A, satC7B] [truckC7A, truckC7B] = .ok rs ∧ ¬ truckStartTimeClaim rs := by
  refine ⟨routesC7, runC7_eval, ?_⟩
  rintro ⟨-, htr⟩
  have h3 := htr rTruckC7A (by simp [routesC7]) rfl
  have hfeed : satFeedCompletions routesC7 rTruckC7A = [0] := by
    norm_num +decide [satFeedCompletions, visitedStationIds, routesC7, rSatC7A, rSatC7B,
      rTruckC7A, rTruckC7B, List.filter]
  rw [hfeed] at h3
  have hmax : listMax0 [(0 : ℝ)] = 0 := by simp [listMax0]
  rw [hmax] at h3
  have hge : satTimeC7 ≤ rTruckC7A.startTime := le_sup_right
  have h1le : (1 : ℝ) ≤ satTimeC7 := by
    have h2 : (1 : ℤ) ≤ ⌊(havConst * (3 / 10) + havConst * (3 / 10)) / 25 * 60 + 1 / 2⌋ := by
      rw [Int.le_floor]
      push_cast
      nlinarith [havConst_gt_100]
    simp only [satTimeC7]
    exact_mod_cast h2
  rw [h3] at hge
  linarith

/-- Witness for C7 amended at the witness run. -/
theorem claim7_start_times_witness :
    (∀ r ∈ [satRouteW, truckRouteW], r.vehicleType = VehicleType.sat →
      r.startTime = 0) ∧
    (∀ r ∈ [satRouteW, truckRouteW], r.vehicleType = VehicleType.truck →
      r.startTime = listMax0 (([satRouteW, truckRouteW].filter
        (fun q => q.vehicleType == VehicleType.sat)).map
        (fun q => q.startTime + q.estimatedTime))) :=
  claim7_start_times dZero 12 [bin50] [stC3] [dumpC3] [satC3] [truckC3] _ runW_eval

end Ajastra
